import Mathlib

/-!
# Black Magic Debug remote protocol (`src/remote.c`)

A shallow embedding of the remote-protocol bridge: the hex codec
(`remotehston`, `NTOH`, `HTON`, `ISHEX`), the three response encoders
(`_respond`, `_respond_buf`, `_respondS`) and the four packet handlers with
the top-level dispatcher.

Characters are their byte codes (`Nat`), C strings are lists of byte codes
whose terminating NUL is implicit (reading at the end of the list reads the
NUL, and so does reading a command buffer beyond its end), `uint64_t` /
`uint32_t` / `uint8_t` values are `Nat` with explicit reduction modulo `2^64` /
`2^32` / `2^8`.

A handler is a function from the behaviour of its collaborators (`Env`) and
the value of `cur_target` to the list of the calls it makes, in order, and the
value of `cur_target` afterwards; `wire` gives the bytes these calls put on the
transport.
-/

namespace Remote

/-! ## Hex codec macros -/

/-- The macro `TOUPPER(x)`: letters `a`..`z` are moved to upper case. -/
def TOUPPER (x : Nat) : Nat :=
  if 97 ≤ x ∧ x ≤ 122 then x - (97 - 65) else x

/-- The macro `ISHEX(x)`: `0`..`9`, `A`..`F` or `a`..`f`. -/
def ISHEX (x : Nat) : Bool :=
  (decide (48 ≤ x) && decide (x ≤ 57)) ||
  (decide (65 ≤ x) && decide (x ≤ 70)) ||
  (decide (97 ≤ x) && decide (x ≤ 102))

/-- The macro `HTON(x)`: the value of a hex character. -/
def HTON (x : Nat) : Nat :=
  if x ≤ 57 then x - 48 else TOUPPER x - 65 + 10

/-- The macro `NTOH(x)`: the (lower-case) hex character of a nibble. -/
def NTOH (x : Nat) : Nat :=
  if x ≤ 9 then x + 48 else 97 + x - 10

/-- The loop of `remotehston`: `ret` is the accumulator, `limit` the number of
characters that may still be read.  At the end of the list the character read
is the terminating NUL, which is not a hex digit. -/
def remotehstonLoop : Nat → Nat → List Nat → Nat
  | ret, 0, _ => ret
  | ret, _ + 1, [] => ret
  | ret, limit + 1, c :: s =>
      if ISHEX c then remotehstonLoop (((ret <<< 4) % 2 ^ 64) ||| HTON c) limit s
      else ret

/-- The function `remotehston(limit, s)`: numeric value of the string, until an
illegal hex digit or the limit. -/
def remotehston (limit : Nat) (s : List Nat) : Nat :=
  remotehstonLoop 0 limit s

/-- The argument `-1` converted to `uint32_t`: the "no limit" sentinel. -/
def NOLIMIT : Nat := 2 ^ 32 - 1

/-! ## Transport -/

/-- One call `gdb_if_putchar(c, flush)`. -/
structure Put where
  c : Nat
  flush : Nat
  deriving DecidableEq, Repr

/-- Constants of `remote.h`, `exception.h` and the platform configuration;
their values are not fixed by `remote.c`. -/
structure Consts where
  REMOTE_SOM : Nat
  REMOTE_EOM : Nat
  REMOTE_RESP : Nat
  REMOTE_RESP_OK : Nat
  REMOTE_RESP_PARERR : Nat
  REMOTE_RESP_ERR : Nat
  REMOTE_RESP_NOTSUP : Nat
  REMOTE_ERROR_UNRECOGNISED : Nat
  REMOTE_ERROR_WRONGLEN : Nat
  REMOTE_SWDP_PACKET : Nat
  REMOTE_JTAG_PACKET : Nat
  REMOTE_GEN_PACKET : Nat
  REMOTE_HL_PACKET : Nat
  REMOTE_INIT : Nat
  REMOTE_IN_PAR : Nat
  REMOTE_IN : Nat
  REMOTE_OUT : Nat
  REMOTE_OUT_PAR : Nat
  REMOTE_RESET : Nat
  REMOTE_TMS : Nat
  REMOTE_TDITDO_TMS : Nat
  REMOTE_TDITDO_NOTMS : Nat
  REMOTE_NEXT : Nat
  REMOTE_VOLTAGE : Nat
  REMOTE_SRST_SET : Nat
  REMOTE_SRST_GET : Nat
  REMOTE_PWR_SET : Nat
  REMOTE_PWR_GET : Nat
  REMOTE_START : Nat
  REMOTE_INIT_SWDP : Nat
  REMOTE_MEM_READ : Nat
  REMOTE_MEM_WRITE : Nat
  REMOTE_REG_READ : Nat
  REMOTE_REG_WRITE : Nat
  PLATFORM_HAS_POWER_SWITCH : Bool
  BOARD_IDENT : List Nat
  FIRMWARE_VERSION : List Nat

/-! ## Response encoder -/

/-- Modelled from the spec: `hexify` of `hex_utils`, applied to one byte
(`byteToHex`, the fixed 2-digit-per-byte conversion): the high nibble first,
then the low nibble, with the upper-case digits of the spec's example
(`[0xAB, 0xCD]` gives `ABCD`). -/
def hexify (b : Nat) : Nat × Nat :=
  let d := fun n : Nat => if n ≤ 9 then n + 48 else n - 10 + 65
  (d ((b % 256) / 16), d (b % 16))

/-- The do-while loop of `_send_buf` with `p = buffer + i`: the pair of the
byte at `p` is sent, then the loop goes on while `p < buffer + len`. -/
def sendBufLoop (buffer : List Nat) (len : Nat) (i : Nat) : List Put :=
  let hex := hexify (buffer.getD i 0)
  Put.mk hex.1 0 :: Put.mk hex.2 0 ::
    (if i + 1 < len then sendBufLoop buffer len (i + 1) else [])
termination_by len - i

/-- The function `_send_buf(buffer, len)`. -/
def _send_buf (buffer : List Nat) (len : Nat) : List Put :=
  sendBufLoop buffer len 0

/-- The function `_respond_buf(respCode, buffer, len)`. -/
def _respond_buf (K : Consts) (respCode : Nat) (buffer : List Nat) (len : Nat) : List Put :=
  [Put.mk K.REMOTE_RESP 0] ++ [Put.mk respCode 0] ++ _send_buf buffer len ++
    [Put.mk K.REMOTE_EOM 1]

/-- The first do-while loop of `_respond`: the characters stored in `buf`,
in the order they are stored. -/
def respondFill (param : Nat) : List Nat :=
  NTOH (param &&& 0x0f) ::
    (if _ : param >>> 4 = 0 then [] else respondFill (param >>> 4))
termination_by param
decreasing_by
  rename_i h
  rw [Nat.shiftRight_eq_div_pow] at h ⊢
  omega

/-- The second do-while loop of `_respond` with `p = buf + i`: `*--p` is sent,
then the loop goes on while `p > buf`.  It is entered with `i ≥ 1`, the first
loop having stored at least one character. -/
def respondSpool (buf : List Nat) : Nat → List Put
  | 0 => []
  | i + 1 => Put.mk (buf.getD i 0) 0 :: (if 0 < i then respondSpool buf i else [])

/-- The function `_respond(respCode, param)`, `param` a `uint64_t`. -/
def _respond (K : Consts) (respCode : Nat) (param : Nat) : List Put :=
  let buf := respondFill (param % 2 ^ 64)
  [Put.mk K.REMOTE_RESP 0] ++ [Put.mk respCode 0] ++ respondSpool buf buf.length ++
    [Put.mk K.REMOTE_EOM 1]

/-- The while loop of `_respondS`: it ends at the terminating NUL. -/
def respondSLoop (K : Consts) : List Nat → List Put
  | [] => []
  | c :: s =>
      if c = 0 then []
      else
        (if c = 36 ∨ c = K.REMOTE_SOM ∨ c = K.REMOTE_EOM then Put.mk 32 0 else Put.mk c 0)
          :: respondSLoop K s

/-- The function `_respondS(respCode, s)`. -/
def _respondS (K : Consts) (respCode : Nat) (s : List Nat) : List Put :=
  [Put.mk K.REMOTE_RESP 0] ++ [Put.mk respCode 0] ++ respondSLoop K s ++
    [Put.mk K.REMOTE_EOM 1]

/-! ## Collaborators -/

/-- What `TRY_CATCH (e, EXCEPTION_ALL) { devs = adiv5_swdp_scan(); }` leaves
behind: the scan returned `devs`, or it raised `EXCEPTION_TIMEOUT` or
`EXCEPTION_ERROR` (then `e.type` is that type and `devs` keeps its value). -/
inductive ScanOutcome where
  | returned (devs : Int)
  | raised_TIMEOUT
  | raised_ERROR
  deriving DecidableEq, Repr

/-- The behaviour of the collaborators (tap driver, platform layer, target
layer, allocator) during one command.  A target is the non-null handle
`target *`, a `Nat`. -/
structure Env where
  /-- The parity flag returned and the `uint32_t` left in `param`, per `ticks`. -/
  swdptap_seq_in_parity : Nat → Bool × Nat
  swdptap_seq_in : Nat → Nat
  /-- The 8 bytes of `DO` after the call, as a `uint64_t`, per final TMS, `DI`, `ticks`. -/
  jtagtap_tdi_tdo_seq : Bool → Nat → Nat → Nat
  jtagtap_next : Bool → Bool → Nat
  platform_target_voltage : List Nat
  platform_srst_get_val : Bool
  platform_target_get_power : Bool
  adiv5_swdp_scan : ScanOutcome
  /-- The result of `target_attach_n(1, 0)`: `none` is the null pointer. -/
  target_attach_n : Option Nat
  /-- Whether `malloc(size)` returns a non-null pointer. -/
  malloc : Nat → Bool
  /-- The status returned and the bytes read, per target, address, count. -/
  target_mem_read : Nat → Nat → Nat → Int × List Nat
  /-- The status returned, per target, address, data, count. -/
  target_mem_write : Nat → Nat → List Nat → Nat → Int
  /-- The 4 bytes left in `val`, per target and register. -/
  target_reg_read : Nat → Nat → List Nat

/-- One call made by a handler, in the order the calls are made. -/
inductive Call where
  | respond (respCode param : Nat)
  | respond_buf (respCode : Nat) (buffer : List Nat) (len : Nat)
  | respondS (respCode : Nat) (s : List Nat)
  | swdptap_init
  | swdptap_seq_in_parity (ticks : Nat)
  | swdptap_seq_in (ticks : Nat)
  | swdptap_seq_out (param ticks : Nat)
  | swdptap_seq_out_parity (param ticks : Nat)
  | jtagtap_init
  | jtagtap_reset
  | jtagtap_tms_seq (MS ticks : Nat)
  | jtagtap_tdi_tdo_seq (final_tms : Bool) (DI ticks : Nat)
  | jtagtap_next (dTMS dTDO : Bool)
  | platform_target_voltage
  | platform_srst_set_val (assert : Bool)
  | platform_srst_get_val
  | platform_target_set_power (power : Bool)
  | platform_target_get_power
  | SET_IDLE_STATE (state : Nat)
  | adiv5_swdp_scan
  | target_attach_n (n : Nat)
  | target_mem_read (t src len : Nat)
  | target_mem_write (t dest : Nat) (src : List Nat) (len : Nat)
  | target_reg_read (t reg : Nat)
  | target_reg_write (t reg val : Nat)
  | target_reset (t : Nat)
  | malloc (size : Nat)
  | free
  deriving DecidableEq, Repr

/-- The bytes a call puts on the transport: only the three response functions
send anything. -/
def Call.wire (K : Consts) : Call → List Put
  | Call.respond respCode param => _respond K respCode param
  | Call.respond_buf respCode buffer len => _respond_buf K respCode buffer len
  | Call.respondS respCode s => _respondS K respCode s
  | _ => []

/-- Whether a call is one of `_respond`, `_respond_buf`, `_respondS`. -/
def Call.isResponse : Call → Bool
  | Call.respond _ _ => true
  | Call.respond_buf _ _ _ => true
  | Call.respondS _ _ => true
  | _ => false

/-- Whether a call enters the target layer. -/
def Call.isTargetOp : Call → Bool
  | Call.adiv5_swdp_scan => true
  | Call.target_attach_n _ => true
  | Call.target_mem_read _ _ _ => true
  | Call.target_mem_write _ _ _ _ => true
  | Call.target_reg_read _ _ => true
  | Call.target_reg_write _ _ _ => true
  | Call.target_reset _ => true
  | _ => false

/-- The byte stream of a whole trace of calls. -/
def wire (K : Consts) (tr : List Call) : List Put :=
  (tr.map (Call.wire K)).flatten

/-- The number of response-function calls in a trace. -/
def responses (tr : List Call) : Nat :=
  tr.countP Call.isResponse

/-! ## SWD and JTAG handlers -/

/-- The function `remotePacketProcessSWD(i, packet)`. -/
def remotePacketProcessSWD (K : Consts) (env : Env) (i : Nat) (packet : List Nat) : List Call :=
  let sub := packet.getD 1 0
  if sub = K.REMOTE_INIT then
    if i = 2 then [Call.swdptap_init, Call.respond K.REMOTE_RESP_OK 0]
    else [Call.respond K.REMOTE_RESP_ERR K.REMOTE_ERROR_WRONGLEN]
  else if sub = K.REMOTE_IN_PAR then
    let ticks := remotehston 2 (packet.drop 2) % 2 ^ 8
    let r := env.swdptap_seq_in_parity ticks
    let badParity := r.1
    let param := r.2 % 2 ^ 32
    [Call.swdptap_seq_in_parity ticks,
     Call.respond (if badParity then K.REMOTE_RESP_PARERR else K.REMOTE_RESP_OK) param]
  else if sub = K.REMOTE_IN then
    let ticks := remotehston 2 (packet.drop 2) % 2 ^ 8
    let param := env.swdptap_seq_in ticks % 2 ^ 32
    [Call.swdptap_seq_in ticks, Call.respond K.REMOTE_RESP_OK param]
  else if sub = K.REMOTE_OUT then
    let ticks := remotehston 2 (packet.drop 2) % 2 ^ 8
    let param := remotehston NOLIMIT (packet.drop 4) % 2 ^ 32
    [Call.swdptap_seq_out param ticks, Call.respond K.REMOTE_RESP_OK 0]
  else if sub = K.REMOTE_OUT_PAR then
    let ticks := remotehston 2 (packet.drop 2) % 2 ^ 8
    let param := remotehston NOLIMIT (packet.drop 4) % 2 ^ 32
    [Call.swdptap_seq_out_parity param ticks, Call.respond K.REMOTE_RESP_OK 0]
  else [Call.respond K.REMOTE_RESP_ERR K.REMOTE_ERROR_UNRECOGNISED]

/-- Reduction of an integer to the range of a 32-bit `int` (two's complement). -/
def wrapInt32 (z : Int) : Int :=
  (z + 2 ^ 31) % 2 ^ 32 - 2 ^ 31

/-- The expression `(1<<(ticks+1))-1` in 32-bit `int` arithmetic, converted to
`uint64_t` for `DO &= ...`.  The shift and the subtraction are reduced to 32
bits (a shift count of 32 or more leaves 0). -/
def tdoMask (ticks : Nat) : Nat :=
  (wrapInt32 (wrapInt32 (2 ^ (ticks + 1)) - 1) % 2 ^ 64).toNat

/-- The function `remotePacketProcessJTAG(i, packet)`. -/
def remotePacketProcessJTAG (K : Consts) (env : Env) (i : Nat) (packet : List Nat) : List Call :=
  let sub := packet.getD 1 0
  if sub = K.REMOTE_INIT then
    [Call.jtagtap_init, Call.respond K.REMOTE_RESP_OK 0]
  else if sub = K.REMOTE_RESET then
    [Call.jtagtap_reset, Call.respond K.REMOTE_RESP_OK 0]
  else if sub = K.REMOTE_TMS then
    let ticks := remotehston 2 (packet.drop 2) % 2 ^ 8
    let MS := remotehston 2 (packet.drop 4) % 2 ^ 32
    if i < 4 then [Call.respond K.REMOTE_RESP_ERR K.REMOTE_ERROR_WRONGLEN]
    else [Call.jtagtap_tms_seq MS ticks, Call.respond K.REMOTE_RESP_OK 0]
  else if sub = K.REMOTE_TDITDO_TMS ∨ sub = K.REMOTE_TDITDO_NOTMS then
    if i < 5 then [Call.respond K.REMOTE_RESP_ERR K.REMOTE_ERROR_WRONGLEN]
    else
      let ticks := remotehston 2 (packet.drop 2) % 2 ^ 8
      let DI := remotehston NOLIMIT (packet.drop 4)
      let final_tms := decide (sub = K.REMOTE_TDITDO_TMS)
      let DO := env.jtagtap_tdi_tdo_seq final_tms DI ticks % 2 ^ 64
      let DO := DO &&& tdoMask ticks
      [Call.jtagtap_tdi_tdo_seq final_tms DI ticks, Call.respond K.REMOTE_RESP_OK DO]
  else if sub = K.REMOTE_NEXT then
    if i ≠ 4 then [Call.respond K.REMOTE_RESP_ERR K.REMOTE_ERROR_WRONGLEN]
    else
      let dTMS := decide (packet.getD 2 0 = 49)
      let dTDO := decide (packet.getD 3 0 = 49)
      let dat := env.jtagtap_next dTMS dTDO % 2 ^ 32
      [Call.jtagtap_next dTMS dTDO, Call.respond K.REMOTE_RESP_OK dat]
  else [Call.respond K.REMOTE_RESP_ERR K.REMOTE_ERROR_UNRECOGNISED]

/-! ## General and high-level handlers -/

/-- The function `remotePacketProcessGEN(i, packet)`. -/
def remotePacketProcessGEN (K : Consts) (env : Env) (_i : Nat) (packet : List Nat) : List Call :=
  let sub := packet.getD 1 0
  if sub = K.REMOTE_VOLTAGE then
    [Call.platform_target_voltage, Call.respondS K.REMOTE_RESP_OK env.platform_target_voltage]
  else if sub = K.REMOTE_SRST_SET then
    [Call.platform_srst_set_val (decide (packet.getD 2 0 = 49)), Call.respond K.REMOTE_RESP_OK 0]
  else if sub = K.REMOTE_SRST_GET then
    [Call.platform_srst_get_val,
     Call.respond K.REMOTE_RESP_OK (if env.platform_srst_get_val then 1 else 0)]
  else if sub = K.REMOTE_PWR_SET then
    if K.PLATFORM_HAS_POWER_SWITCH then
      [Call.platform_target_set_power (decide (packet.getD 2 0 = 49)),
       Call.respond K.REMOTE_RESP_OK 0]
    else [Call.respond K.REMOTE_RESP_NOTSUP 0]
  else if sub = K.REMOTE_PWR_GET then
    if K.PLATFORM_HAS_POWER_SWITCH then
      [Call.platform_target_get_power,
       Call.respond K.REMOTE_RESP_OK (if env.platform_target_get_power then 1 else 0)]
    else [Call.respond K.REMOTE_RESP_NOTSUP 0]
  else if sub = K.REMOTE_START then
    [Call.respondS K.REMOTE_RESP_OK (K.BOARD_IDENT ++ [32] ++ K.FIRMWARE_VERSION)]
  else [Call.respond K.REMOTE_RESP_ERR K.REMOTE_ERROR_UNRECOGNISED]

/-- Modelled from the spec: one hex digit of `unhexify` of `hex_utils`
(`hexToByte`); a character that is no hex digit, on which the spec is silent,
counts 0. -/
def unhex_digit (c : Nat) : Nat :=
  if 48 ≤ c ∧ c ≤ 57 then c - 48
  else if 65 ≤ c ∧ c ≤ 70 then c - 65 + 10
  else if 97 ≤ c ∧ c ≤ 102 then c - 97 + 10
  else 0

/-- Modelled from the spec: `unhexify(buf, hex, size)` of `hex_utils`
(`hexToByte`, the fixed 2-digit-per-byte conversion), the `size` bytes decoded
from the first `2 * size` characters of `hex`, high nibble first. -/
def unhexify (hex : List Nat) (size : Nat) : List Nat :=
  (List.range size).map
    (fun k => unhex_digit (hex.getD (2 * k) 0) * 16 + unhex_digit (hex.getD (2 * k + 1) 0))

/-- The memory at a destination of initial content `init` after the target
layer has stored the first `len` bytes of `data` there. -/
def stored (init data : List Nat) (len : Nat) : List Nat :=
  (List.range (max len init.length)).map
    (fun k => if k < len then data.getD k 0 else init.getD k 0)

/-- The block `case REMOTE_INIT_SWDP` of `remotePacketProcessHL`: the calls
made and the value of `cur_target` afterwards. -/
def hlInitSwdp (K : Consts) (env : Env) (cur_target : Option Nat) : List Call × Option Nat :=
  let scanned : Int × List Call :=
    match env.adiv5_swdp_scan with
    | ScanOutcome.returned d => (d, [])
    | ScanOutcome.raised_TIMEOUT => (-1, [Call.respond K.REMOTE_RESP_ERR 0])
    | ScanOutcome.raised_ERROR => (-1, [Call.respond K.REMOTE_RESP_ERR 0])
  let devs := scanned.1
  let pre := [Call.swdptap_init, Call.adiv5_swdp_scan] ++ scanned.2
  if devs ≤ 0 then (pre ++ [Call.respond K.REMOTE_RESP_ERR 0], cur_target)
  else
    let cur_target := env.target_attach_n
    (pre ++ [Call.target_attach_n 1] ++
      (if cur_target.isSome then [Call.respond K.REMOTE_RESP_OK 0]
       else [Call.respond K.REMOTE_RESP_ERR 0]), cur_target)

/-- The block `case REMOTE_MEM_READ` of `remotePacketProcessHL`. -/
def hlMemRead (K : Consts) (env : Env) (cur_target : Option Nat) (packet : List Nat) :
    List Call :=
  let packet := packet.drop 2
  let address := remotehston 8 packet % 2 ^ 32
  let packet := packet.drop 8
  let count := remotehston 8 packet % 2 ^ 32
  match cur_target with
  | some t =>
    if count ≤ 4 then
      let r := env.target_mem_read t address count
      let mem := stored [0, 0, 0, 0] r.2 count
      if r.1 ≠ 0 then [Call.target_mem_read t address count, Call.respond K.REMOTE_RESP_ERR 0]
      else [Call.target_mem_read t address count, Call.respond_buf K.REMOTE_RESP_OK mem count]
    else
      if ¬ env.malloc count then [Call.malloc count, Call.respond K.REMOTE_RESP_ERR 0]
      else
        let r := env.target_mem_read t address count
        let mem := stored [] r.2 count
        [Call.malloc count, Call.target_mem_read t address count] ++
          (if r.1 ≠ 0 then [Call.respond K.REMOTE_RESP_ERR 0]
           else [Call.respond_buf K.REMOTE_RESP_OK mem count]) ++
          [Call.free]
  | none => [Call.respond K.REMOTE_RESP_ERR 0]

/-- The block `case REMOTE_MEM_WRITE` of `remotePacketProcessHL`. -/
def hlMemWrite (K : Consts) (env : Env) (cur_target : Option Nat) (packet : List Nat) :
    List Call :=
  match cur_target with
  | none => [Call.respond K.REMOTE_RESP_ERR 0]
  | some t =>
    let packet := packet.drop 2
    let address := remotehston 8 packet % 2 ^ 32
    let packet := packet.drop 8
    let count := remotehston 8 packet % 2 ^ 32
    let packet := packet.drop 8
    if count ≤ 4 then
      let val := unhexify packet count
      [Call.target_mem_write t address val count] ++
        (if env.target_mem_write t address val count ≠ 0 then [Call.respond K.REMOTE_RESP_ERR 0]
         else [Call.respond K.REMOTE_RESP_OK 0])
    else
      if ¬ env.malloc count then [Call.malloc count, Call.respond K.REMOTE_RESP_ERR 0]
      else
        let data := unhexify packet count
        [Call.malloc count, Call.target_mem_write t address data count] ++
          (if env.target_mem_write t address data count ≠ 0 then
             [Call.respond K.REMOTE_RESP_ERR 0]
           else [Call.respond K.REMOTE_RESP_OK 0]) ++
          [Call.free]

/-- The `switch (packet[1])` of `remotePacketProcessHL`: the calls made and
the value of `cur_target` afterwards. -/
def hlSwitch (K : Consts) (env : Env) (cur_target : Option Nat) (packet : List Nat) :
    List Call × Option Nat :=
  let sub := packet.getD 1 0
  if sub = K.REMOTE_INIT_SWDP then hlInitSwdp K env cur_target
  else if sub = K.REMOTE_MEM_READ then (hlMemRead K env cur_target packet, cur_target)
  else if sub = K.REMOTE_MEM_WRITE then (hlMemWrite K env cur_target packet, cur_target)
  else if sub = K.REMOTE_REG_READ then
    match cur_target with
    | none => ([Call.respond K.REMOTE_RESP_ERR 0], cur_target)
    | some t =>
      let reg := remotehston 2 (packet.drop 2) % 2 ^ 8
      let val := stored [] (env.target_reg_read t reg) 4
      ([Call.target_reg_read t reg, Call.respond_buf K.REMOTE_RESP_OK val 4], cur_target)
  else if sub = K.REMOTE_REG_WRITE then
    match cur_target with
    | none => ([Call.respond K.REMOTE_RESP_ERR 0], cur_target)
    | some t =>
      let reg := remotehston 2 (packet.drop 2) % 2 ^ 8
      let val := remotehston 8 ((packet.drop 2).drop 2) % 2 ^ 32
      ([Call.target_reg_write t reg val, Call.respond K.REMOTE_RESP_OK 0], cur_target)
  else if sub = K.REMOTE_RESET then
    match cur_target with
    | none => ([Call.respond K.REMOTE_RESP_ERR 0], cur_target)
    | some t => ([Call.target_reset t, Call.respond K.REMOTE_RESP_OK 0], cur_target)
  else ([Call.respond K.REMOTE_RESP_ERR K.REMOTE_ERROR_UNRECOGNISED], cur_target)

/-- The function `remotePacketProcessHL(i, packet)`, from a value of
`cur_target` to the calls made and the value of `cur_target` afterwards. -/
def remotePacketProcessHL (K : Consts) (env : Env) (cur_target : Option Nat) (_i : Nat)
    (packet : List Nat) : List Call × Option Nat :=
  let r := hlSwitch K env cur_target packet
  ([Call.SET_IDLE_STATE 0] ++ r.1 ++ [Call.SET_IDLE_STATE 1], r.2)

/-- The function `remotePacketProcess(i, packet)`. -/
def remotePacketProcess (K : Consts) (env : Env) (cur_target : Option Nat) (i : Nat)
    (packet : List Nat) : List Call × Option Nat :=
  let cls := packet.getD 0 0
  if cls = K.REMOTE_SWDP_PACKET then (remotePacketProcessSWD K env i packet, cur_target)
  else if cls = K.REMOTE_JTAG_PACKET then (remotePacketProcessJTAG K env i packet, cur_target)
  else if cls = K.REMOTE_GEN_PACKET then (remotePacketProcessGEN K env i packet, cur_target)
  else if cls = K.REMOTE_HL_PACKET then remotePacketProcessHL K env cur_target i packet
  else ([Call.respond K.REMOTE_RESP_ERR K.REMOTE_ERROR_UNRECOGNISED], cur_target)

/-! ## Notions used to state the properties -/

/-- The value of a hex digit: `0`..`9` are 0..9, `a`..`f` and `A`..`F` are
10..15. -/
def digit (c : Nat) : Nat :=
  if 48 ≤ c ∧ c ≤ 57 then c - 48
  else if 97 ≤ c ∧ c ≤ 102 then c - 97 + 10
  else if 65 ≤ c ∧ c ≤ 70 then c - 65 + 10
  else 0

/-- The leading run of hex digits of a string, cut at `limit`. -/
def hexRun (limit : Nat) (s : List Nat) : List Nat :=
  (s.take limit).takeWhile ISHEX

/-- The big-endian value of the digits `d1..dm`: the sum of
`digit di * 16^(m-i)`. -/
def beValue : List Nat → Nat
  | [] => 0
  | d :: ds => digit d * 16 ^ ds.length + beValue ds

/-- The lower-case spelling of a character. -/
def TOLOWER (x : Nat) : Nat :=
  if 65 ≤ x ∧ x ≤ 90 then x + 32 else x

/-- The index of the first character of a string that is no hex digit (the
index of the terminating NUL when all are). -/
def firstNonHex (s : List Nat) : Nat :=
  (s.takeWhile ISHEX).length

/-- The characters of a response between the status byte and the terminator. -/
def payload (out : List Put) : List Nat :=
  ((out.drop 2).dropLast).map Put.c

/-- The number of significant hex digits of a value (0 for the value 0). -/
def hexDigits (v : Nat) : Nat :=
  (Nat.digits 16 v).length

/-- A configuration of the constants: the markers `!`, `#`, `&`, the status
codes `K`, `P`, `E`, `N`, the detail codes 1 and 2 and the packet-class and
sub-command letters of the Black Magic Debug `remote.h`, with letters of their
own for the five target sub-commands of the high-level class; no power
switch. -/
def sampleConsts : Consts where
  REMOTE_SOM := 33
  REMOTE_EOM := 35
  REMOTE_RESP := 38
  REMOTE_RESP_OK := 75
  REMOTE_RESP_PARERR := 80
  REMOTE_RESP_ERR := 69
  REMOTE_RESP_NOTSUP := 78
  REMOTE_ERROR_UNRECOGNISED := 1
  REMOTE_ERROR_WRONGLEN := 2
  REMOTE_SWDP_PACKET := 83
  REMOTE_JTAG_PACKET := 74
  REMOTE_GEN_PACKET := 71
  REMOTE_HL_PACKET := 72
  REMOTE_INIT := 83
  REMOTE_IN_PAR := 73
  REMOTE_IN := 105
  REMOTE_OUT := 111
  REMOTE_OUT_PAR := 79
  REMOTE_RESET := 82
  REMOTE_TMS := 84
  REMOTE_TDITDO_TMS := 68
  REMOTE_TDITDO_NOTMS := 100
  REMOTE_NEXT := 78
  REMOTE_VOLTAGE := 86
  REMOTE_SRST_SET := 90
  REMOTE_SRST_GET := 122
  REMOTE_PWR_SET := 80
  REMOTE_PWR_GET := 112
  REMOTE_START := 65
  REMOTE_INIT_SWDP := 115
  REMOTE_MEM_READ := 109
  REMOTE_MEM_WRITE := 77
  REMOTE_REG_READ := 103
  REMOTE_REG_WRITE := 71
  PLATFORM_HAS_POWER_SWITCH := false
  BOARD_IDENT := [66, 77, 80]
  FIRMWARE_VERSION := [118, 49]

/-- A behaviour of the collaborators with the given outcome of the device
scan: every tap and platform call returns 0, the attach returns target 1,
allocations succeed, target reads succeed and return zero bytes, target
writes succeed. -/
def sampleEnv (scan : ScanOutcome) : Env where
  swdptap_seq_in_parity := fun _ => (false, 0)
  swdptap_seq_in := fun _ => 0
  jtagtap_tdi_tdo_seq := fun _ _ _ => 0
  jtagtap_next := fun _ _ => 0
  platform_target_voltage := [51, 46, 51, 86]
  platform_srst_get_val := false
  platform_target_get_power := false
  adiv5_swdp_scan := scan
  target_attach_n := some 1
  malloc := fun _ => true
  target_mem_read := fun _ _ _ => (0, [])
  target_mem_write := fun _ _ _ _ => 0
  target_reg_read := fun _ _ => [0, 0, 0, 0]

/-- The two hex characters `_send_buf` sends for one byte. -/
def hexPair (x : Nat) : List Nat :=
  [(hexify x).1, (hexify x).2]

/-- The command buffer of a high-level Memory Read with address 0 and count 0
under `sampleConsts`: `Hm`, then 8 + 8 digits `0`. -/
def memReadZeroPacket : List Nat :=
  [72, 109, 48, 48, 48, 48, 48, 48, 48, 48, 48, 48, 48, 48, 48, 48, 48, 48]

/-- The text `_respondS` sends for a string: `$`, `REMOTE_SOM` and
`REMOTE_EOM` give a blank, every other character itself. -/
def clobber (K : Consts) (c : Nat) : Nat :=
  if c = 36 ∨ c = K.REMOTE_SOM ∨ c = K.REMOTE_EOM then 32 else c

/-- A framed response: the marker `REMOTE_RESP`, the status byte, the payload
and the terminator `REMOTE_EOM`, the terminator being the last byte and the
only byte sent with the last-of-response flag set. -/
def Framed (K : Consts) (status : Nat) (out : List Put) : Prop :=
  out = [Put.mk K.REMOTE_RESP 0] ++ [Put.mk status 0] ++
      (payload out).map (fun c => Put.mk c 0) ++ [Put.mk K.REMOTE_EOM 1] ∧
  out.getLast? = some (Put.mk K.REMOTE_EOM 1) ∧
  out.filter (fun x => decide (x.flush ≠ 0)) = [Put.mk K.REMOTE_EOM 1]

/-- The status byte of a call of a response function. -/
def Call.status : Call → Option Nat
  | Call.respond respCode _ => some respCode
  | Call.respond_buf respCode _ _ => some respCode
  | Call.respondS respCode _ => some respCode
  | _ => none

/-- Whether a call enters the tap driver. -/
def Call.isTapOp : Call → Bool
  | Call.swdptap_init => true
  | Call.swdptap_seq_in_parity _ => true
  | Call.swdptap_seq_in _ => true
  | Call.swdptap_seq_out _ _ => true
  | Call.swdptap_seq_out_parity _ _ => true
  | Call.jtagtap_init => true
  | Call.jtagtap_reset => true
  | Call.jtagtap_tms_seq _ _ => true
  | Call.jtagtap_tdi_tdo_seq _ _ _ => true
  | Call.jtagtap_next _ _ => true
  | _ => false

/-- Whether a call enters the platform layer. -/
def Call.isPlatformOp : Call → Bool
  | Call.platform_target_voltage => true
  | Call.platform_srst_set_val _ => true
  | Call.platform_srst_get_val => true
  | Call.platform_target_set_power _ => true
  | Call.platform_target_get_power => true
  | _ => false

/-- Whether a call is `SET_IDLE_STATE`. -/
def Call.isIdleSet : Call → Bool
  | Call.SET_IDLE_STATE _ => true
  | _ => false

/-- The idle/busy indicator after a trace of calls, from its value before:
each `SET_IDLE_STATE(state)` stores `state` (1 is idle, 0 is busy). -/
def idleState (s0 : Nat) : List Call → Nat
  | [] => s0
  | Call.SET_IDLE_STATE state :: tr => idleState state tr
  | _ :: tr => idleState s0 tr

/-- The number of calls of `malloc` in a trace. -/
def mallocs (tr : List Call) : Nat :=
  tr.countP (fun c => match c with | Call.malloc _ => true | _ => false)

/-- The number of calls of `free` in a trace. -/
def frees (tr : List Call) : Nat :=
  tr.countP (fun c => decide (c = Call.free))

/-- The address field of a high-level Memory Read or Memory Write command: the
8 hex digits after the class and sub-command bytes, as a `uint32_t`. -/
def memAddress (packet : List Nat) : Nat :=
  remotehston 8 (packet.drop 2) % 2 ^ 32

/-- The count field of a high-level Memory Read or Memory Write command: the
8 hex digits after the address, as a `uint32_t`. -/
def memCount (packet : List Nat) : Nat :=
  remotehston 8 ((packet.drop 2).drop 8) % 2 ^ 32

/-- The first `n` bytes of what the target layer returned. -/
def firstBytes (data : List Nat) (n : Nat) : List Nat :=
  (List.range n).map (fun k => data.getD k 0)

/-- A behaviour of the collaborators like `sampleEnv`, whose target reads
return the bytes `data`. -/
def readEnv (data : List Nat) : Env :=
  { sampleEnv (ScanOutcome.returned 1) with target_mem_read := fun _ _ _ => (0, data) }

/-- The command buffer of a high-level Memory Read with address 0x20000000 and
count 6 under `sampleConsts`: `Hm2000000000000006`. -/
def memReadSixPacket : List Nat :=
  [72, 109, 50, 48, 48, 48, 48, 48, 48, 48, 48, 48, 48, 48, 48, 48, 48, 54]

/-- A behaviour of the collaborators like `sampleEnv`, whose tap leaves the
value `v` in `DO`. -/
def tdoEnv (v : Nat) : Env :=
  { sampleEnv (ScanOutcome.returned 1) with jtagtap_tdi_tdo_seq := fun _ _ _ => v }

/-! ## The hex parser -/

theorem HTON_eq_digit (c : Nat) (h : ISHEX c = true) : HTON c = digit c := by
  unfold ISHEX at h
  unfold HTON TOUPPER digit
  simp only [Bool.or_eq_true, Bool.and_eq_true, decide_eq_true_eq] at h
  split_ifs <;> omega

theorem digit_lt (c : Nat) : digit c < 16 := by
  unfold digit
  split_ifs <;> omega

theorem shift_or_eq (r d : Nat) (hd : d < 16) :
    ((r <<< 4) % 2 ^ 64) ||| d = (r * 16 + d) % 2 ^ 64 := by
  have h1 : (r <<< 4) % 2 ^ 64 = 2 ^ 4 * (r % 2 ^ 60) := by
    rw [Nat.shiftLeft_eq]
    norm_num
    omega
  rw [h1, ← Nat.mul_add_lt_is_or (by norm_num; exact hd)]
  norm_num
  omega

theorem remotehstonLoop_eq_foldl (ret limit : Nat) (s : List Nat) :
    remotehstonLoop ret limit s =
      (hexRun limit s).foldl (fun r c => ((r <<< 4) % 2 ^ 64) ||| HTON c) ret := by
  induction limit generalizing ret s with
  | zero => simp [remotehstonLoop, hexRun]
  | succ n ih =>
    cases s with
    | nil => simp [remotehstonLoop, hexRun]
    | cons c t =>
      by_cases hc : ISHEX c = true
      · simp only [remotehstonLoop, hc, if_true, hexRun, List.take_succ_cons,
          List.takeWhile_cons, List.foldl_cons]
        exact ih _ t
      · simp [remotehstonLoop, hc, hexRun, List.takeWhile_cons]

theorem foldl_eq_beValue (ds : List Nat) (hall : ∀ c ∈ ds, ISHEX c = true) (x : Nat) :
    ds.foldl (fun r c => ((r <<< 4) % 2 ^ 64) ||| HTON c) (x % 2 ^ 64) =
      (x * 16 ^ ds.length + beValue ds) % 2 ^ 64 := by
  induction ds generalizing x with
  | nil => simp [beValue]
  | cons d t ih =>
    have hd : ISHEX d = true := hall d (List.mem_cons_self _ _)
    have ht : ∀ c ∈ t, ISHEX c = true := fun c hc => hall c (List.mem_cons_of_mem _ hc)
    have hstep : ((x % 2 ^ 64) <<< 4) % 2 ^ 64 ||| HTON d = (x * 16 + digit d) % 2 ^ 64 := by
      rw [HTON_eq_digit d hd, shift_or_eq _ _ (digit_lt d)]
      omega
    simp only [List.foldl_cons, hstep, ih ht, beValue, List.length_cons]
    congr 1
    ring

theorem hexRun_all_hex (limit : Nat) (s : List Nat) : ∀ c ∈ hexRun limit s, ISHEX c = true :=
  fun _ hc => List.mem_takeWhile_imp hc

theorem remotehston_eq_mod (limit : Nat) (s : List Nat) :
    remotehston limit s = beValue (hexRun limit s) % 2 ^ 64 := by
  have h := foldl_eq_beValue (hexRun limit s) (hexRun_all_hex limit s) 0
  rw [remotehston, remotehstonLoop_eq_foldl]
  simpa using h

theorem beValue_lt (ds : List Nat) : beValue ds < 16 ^ ds.length := by
  induction ds with
  | nil => simp [beValue]
  | cons d t ih =>
    have := digit_lt d
    simp only [beValue, List.length_cons, pow_succ]
    nlinarith

theorem case_insensitive (c : Nat) :
    ISHEX (TOUPPER c) = ISHEX (TOLOWER c) ∧ HTON (TOUPPER c) = HTON (TOLOWER c) := by
  unfold ISHEX HTON TOUPPER TOLOWER
  constructor
  · rw [Bool.eq_iff_iff]
    simp only [Bool.or_eq_true, Bool.and_eq_true, decide_eq_true_eq]
    split_ifs <;> omega
  · split_ifs <;> omega

theorem remotehstonLoop_case (ret limit : Nat) (s : List Nat) :
    remotehstonLoop ret limit (s.map TOUPPER) = remotehstonLoop ret limit (s.map TOLOWER) := by
  induction limit generalizing ret s with
  | zero => simp [remotehstonLoop]
  | succ n ih =>
    cases s with
    | nil => simp [remotehstonLoop]
    | cons c t =>
      simp only [List.map_cons, remotehstonLoop, (case_insensitive c).1, (case_insensitive c).2]
      split
      · exact ih _ t
      · rfl

/-- C3: when the leading run of hex digits of `s`, cut at `limit`, has at most
16 digits, `remotehston` returns their big-endian value, the sum of
`digit di * 16^(m-i)`; and the result is the same for the upper-case and the
lower-case spelling of the string. -/
theorem C3_remotehston_value (limit : Nat) (s : List Nat)
    (hm : (hexRun limit s).length ≤ 16) :
    remotehston limit s = beValue (hexRun limit s) ∧
    remotehston limit (s.map TOUPPER) = remotehston limit (s.map TOLOWER) := by
  refine ⟨?_, remotehstonLoop_case 0 limit s⟩
  rw [remotehston_eq_mod]
  apply Nat.mod_eq_of_lt
  calc beValue (hexRun limit s) < 16 ^ (hexRun limit s).length := beValue_lt _
    _ ≤ 16 ^ 16 := Nat.pow_le_pow_right (by norm_num) hm
    _ = 2 ^ 64 := by norm_num

/-- Witness of C3 on the string `1aF` with no limit. -/
theorem C3_remotehston_value_witness :
    (hexRun NOLIMIT [49, 97, 70]).length ≤ 16 ∧
    remotehston NOLIMIT [49, 97, 70] = beValue (hexRun NOLIMIT [49, 97, 70]) ∧
    remotehston NOLIMIT ([49, 97, 70].map TOUPPER) =
      remotehston NOLIMIT ([49, 97, 70].map TOLOWER) :=
  ⟨by decide, C3_remotehston_value NOLIMIT [49, 97, 70] (by decide)⟩

theorem remotehstonLoop_congr (ret limit : Nat) (s s' : List Nat)
    (h : ∀ j, j < min limit (firstNonHex s + 1) → s.getD j 0 = s'.getD j 0) :
    remotehstonLoop ret limit s = remotehstonLoop ret limit s' := by
  induction limit generalizing ret s s' with
  | zero => cases s <;> cases s' <;> simp [remotehstonLoop]
  | succ n ih =>
    have h0 := h 0 (by simp)
    cases s with
    | nil =>
      cases s' with
      | nil => rfl
      | cons c' t' =>
        simp only [List.getD_nil, List.getD_cons_zero] at h0
        subst h0
        simp [remotehstonLoop, ISHEX]
    | cons c t =>
      cases s' with
      | nil =>
        simp only [List.getD_nil, List.getD_cons_zero] at h0
        subst h0
        simp [remotehstonLoop, ISHEX]
      | cons c' t' =>
        simp only [List.getD_cons_zero] at h0
        subst h0
        by_cases hc : ISHEX c = true
        · simp only [remotehstonLoop, hc, if_true]
          apply ih
          intro j hj
          have hj' : j + 1 < min (n + 1) (firstNonHex (c :: t) + 1) := by
            simp only [firstNonHex, List.takeWhile_cons, hc, if_true, List.length_cons] at hj ⊢
            omega
          simpa using h (j + 1) hj'
        · simp [remotehstonLoop, hc]

theorem remotehston_zero (limit : Nat) (s : List Nat)
    (h : s = [] ∨ limit = 0 ∨ ISHEX (s.getD 0 0) = false) : remotehston limit s = 0 := by
  unfold remotehston
  cases limit with
  | zero => cases s <;> simp [remotehstonLoop]
  | succ n =>
    cases s with
    | nil => simp [remotehstonLoop]
    | cons c t =>
      rcases h with h | h | h
      · simp at h
      · simp at h
      · simp only [List.getD_cons_zero] at h
        simp [remotehstonLoop, h]

/-- C2, as stated, fails: with limit 2 the strings `1g` and `12` agree on
their first `min(limit, k) = 1` characters, `k = 1` being the index of the
first non-hex character of `1g`, and `remotehston` returns 1 on the first and
0x12 on the second. -/
theorem C2_counterexample :
    firstNonHex [49, 103] = 1 ∧
    (∀ j, j < min 2 (firstNonHex [49, 103]) → [49, 103].getD j 0 = [49, 50].getD j 0) ∧
    remotehston 2 [49, 103] = 1 ∧ remotehston 2 [49, 50] = 0x12 := by
  refine ⟨by decide, ?_, by decide, by decide⟩
  intro j hj
  have h1 : firstNonHex [49, 103] = 1 := by decide
  rw [h1] at hj
  have hj0 : j = 0 := by omega
  subst hj0
  rfl

/-- C2, amended: the result of `remotehston` is unchanged when the characters
after the first `min(limit, k + 1)` are replaced arbitrarily, `k` being the
index of the first non-hex character (which is itself examined when it lies
within the limit); and on an empty string, with limit 0, or on a string whose
first character is not a hex digit, the result is 0. -/
theorem C2_remotehston_reads (limit : Nat) (s s' : List Nat)
    (hagree : ∀ j, j < min limit (firstNonHex s + 1) → s.getD j 0 = s'.getD j 0) :
    remotehston limit s = remotehston limit s' ∧
    (s = [] ∨ limit = 0 ∨ ISHEX (s.getD 0 0) = false → remotehston limit s = 0) :=
  ⟨remotehstonLoop_congr 0 limit s s' hagree, remotehston_zero limit s⟩

/-- Witness of C2: with limit 3, `1g` and `1g2` agree on their first
`min(3, 1 + 1) = 2` characters. -/
theorem C2_remotehston_reads_witness :
    (∀ j, j < min 3 (firstNonHex [49, 103] + 1) → [49, 103].getD j 0 = [49, 103, 50].getD j 0) ∧
    remotehston 3 [49, 103] = remotehston 3 [49, 103, 50] ∧
    ([49, 103] = [] ∨ 3 = 0 ∨ ISHEX ([49, 103].getD 0 0) = false →
      remotehston 3 [49, 103] = 0) := by
  have hag : ∀ j, j < min 3 (firstNonHex [49, 103] + 1) →
      [49, 103].getD j 0 = [49, 103, 50].getD j 0 := by
    intro j hj
    have h1 : firstNonHex [49, 103] = 1 := by decide
    rw [h1] at hj
    have hj2 : j = 0 ∨ j = 1 := by omega
    rcases hj2 with hj2 | hj2 <;> subst hj2 <;> rfl
  exact ⟨hag, C2_remotehston_reads 3 [49, 103] [49, 103, 50] hag⟩

/-! ## The integer response -/

theorem respondFill_eq_digits (v : Nat) :
    respondFill v = (if v = 0 then [0] else Nat.digits 16 v).map NTOH := by
  induction v using Nat.strong_induction_on with
  | _ v ih =>
    rw [respondFill]
    have hand : v &&& 0x0f = v % 16 := Nat.and_pow_two_sub_one_eq_mod v 4
    have hshift : v >>> 4 = v / 16 := by
      rw [Nat.shiftRight_eq_div_pow]
    by_cases hv : v = 0
    · subst hv
      simp
    · have hpos : 0 < v := Nat.pos_of_ne_zero hv
      rw [if_neg hv, Nat.digits_def' (by norm_num) hpos, hand]
      simp only [List.map_cons]
      congr 1
      by_cases hq : v / 16 = 0
      · rw [dif_pos (by rw [hshift]; exact hq), hq]
        simp
      · rw [dif_neg (by rw [hshift]; exact hq), hshift, ih (v / 16) (by omega), if_neg hq]

theorem respondFill_getD (v j : Nat) (hj : j < (respondFill v).length) :
    (respondFill v).getD j 0 = NTOH ((v >>> (4 * j)) &&& 0x0f) := by
  induction j generalizing v with
  | zero =>
    rw [respondFill]
    simp
  | succ j ih =>
    rw [respondFill] at hj ⊢
    by_cases hq : v >>> 4 = 0
    · rw [dif_pos hq] at hj
      simp at hj
    · rw [dif_neg hq] at hj ⊢
      simp only [List.length_cons, Nat.add_lt_add_iff_right] at hj
      have h4 : 4 * (j + 1) = 4 + 4 * j := by ring
      rw [List.getD_cons_succ, ih _ hj, h4, Nat.shiftRight_add]

theorem respondSpool_eq (buf : List Nat) (i : Nat) (hi : i ≤ buf.length) :
    respondSpool buf i = ((buf.take i).reverse).map (fun c => Put.mk c 0) := by
  induction i with
  | zero => simp [respondSpool]
  | succ i ih =>
    have hlt : i < buf.length := hi
    have hrest : (if 0 < i then respondSpool buf i else []) = respondSpool buf i := by
      cases i with
      | zero => simp [respondSpool]
      | succ k => simp
    rw [respondSpool, hrest, ih (Nat.le_of_lt hlt), List.take_succ,
      List.getD_eq_getElem _ _ hlt, List.getElem?_eq_getElem hlt]
    simp only [Option.toList_some, List.reverse_append, List.reverse_cons, List.reverse_nil,
      List.nil_append, List.singleton_append, List.map_cons]

theorem payload_frame (a b e : Put) (l : List Put) :
    payload ([a] ++ [b] ++ l ++ [e]) = l.map Put.c := by
  simp [payload]

theorem payload_respond (K : Consts) (respCode param : Nat) :
    payload (_respond K respCode param) = (respondFill (param % 2 ^ 64)).reverse := by
  have hc : (Put.c ∘ fun c => Put.mk c 0) = id := rfl
  simp [payload, _respond, respondSpool_eq, hc]

theorem NTOH_props (d : Nat) (hd : d < 16) :
    ISHEX (NTOH d) = true ∧ digit (NTOH d) = d ∧ (d ≠ 0 → NTOH d ≠ 48) := by
  unfold ISHEX NTOH digit
  refine ⟨?_, ?_, ?_⟩
  · simp only [Bool.or_eq_true, Bool.and_eq_true, decide_eq_true_eq]
    split_ifs <;> omega
  · split_ifs <;> omega
  · intro h0
    split_ifs <;> omega

theorem beValue_concat (ds : List Nat) (d : Nat) :
    beValue (ds ++ [d]) = beValue ds * 16 + digit d := by
  induction ds with
  | nil => simp [beValue]
  | cons x t ih =>
    rw [List.cons_append, beValue, beValue, ih, List.length_append, List.length_singleton,
      pow_succ]
    ring

theorem beValue_reverse_NTOH (L : List Nat) (hL : ∀ d ∈ L, d < 16) :
    beValue ((L.map NTOH).reverse) = Nat.ofDigits 16 L := by
  induction L with
  | nil => simp [beValue]
  | cons d t ih =>
    have hd : d < 16 := hL d (List.mem_cons_self _ _)
    have ht : ∀ x ∈ t, x < 16 := fun x hx => hL x (List.mem_cons_of_mem _ hx)
    rw [List.map_cons, List.reverse_cons, beValue_concat, ih ht, (NTOH_props d hd).2.1,
      Nat.ofDigits_cons]
    ring

/-- The nibbles stored by the first loop of `_respond`: the base-16 digits of
the value, least significant first, a single 0 for the value 0. -/
theorem nibbles_props (v : Nat) :
    (∀ d ∈ (if v = 0 then [0] else Nat.digits 16 v), d < 16) ∧
    Nat.ofDigits 16 (if v = 0 then [0] else Nat.digits 16 v) = v ∧
    (if v = 0 then [0] else Nat.digits 16 v).length = max 1 (hexDigits v) := by
  by_cases hv : v = 0
  · subst hv
    simp [hexDigits]
  · simp only [if_neg hv, hexDigits]
    refine ⟨fun d hd => Nat.digits_lt_base (by norm_num) hd, Nat.ofDigits_digits 16 v, ?_⟩
    have : 0 < (Nat.digits 16 v).length :=
      List.length_pos.mpr (Nat.digits_ne_nil_iff_ne_zero.mpr hv)
    omega

theorem payload_respond_eq (K : Consts) (respCode v : Nat) (hv : v < 2 ^ 64) :
    payload (_respond K respCode v) =
      ((if v = 0 then [0] else Nat.digits 16 v).map NTOH).reverse := by
  rw [payload_respond, Nat.mod_eq_of_lt hv, respondFill_eq_digits]

theorem hexRun_eq_self (limit : Nat) (p : List Nat) (hl : p.length ≤ limit)
    (hall : ∀ c ∈ p, ISHEX c = true) : hexRun limit p = p := by
  rw [hexRun, List.take_of_length_le hl]
  exact List.takeWhile_eq_self_iff.mpr hall

/-- C4: `_respond` round-trips: for every status and every 64-bit value `v`,
`remotehston` applied to the hex digits sent between the status byte and the
terminator, with a limit of at least the number of digits and with the
no-limit sentinel, returns `v`. -/
theorem C4_respond_roundtrip (K : Consts) (status v limit : Nat) (hv : v < 2 ^ 64)
    (hlimit : (payload (_respond K status v)).length ≤ limit) :
    remotehston limit (payload (_respond K status v)) = v ∧
    remotehston NOLIMIT (payload (_respond K status v)) = v := by
  have hp := payload_respond_eq K status v hv
  obtain ⟨hlt, hof, hlen⟩ := nibbles_props v
  have hall : ∀ c ∈ payload (_respond K status v), ISHEX c = true := by
    intro c hc
    rw [hp] at hc
    simp only [List.mem_reverse, List.mem_map] at hc
    obtain ⟨d, hd, rfl⟩ := hc
    exact (NTOH_props d (hlt d hd)).1
  have hval : beValue (payload (_respond K status v)) % 2 ^ 64 = v := by
    rw [hp, beValue_reverse_NTOH _ hlt, hof, Nat.mod_eq_of_lt hv]
  have h16 : (payload (_respond K status v)).length ≤ NOLIMIT := by
    rw [hp, List.length_reverse, List.length_map, hlen]
    by_cases h0 : v = 0
    · subst h0
      simp [hexDigits, NOLIMIT]
    · have hle := Nat.base_pow_length_digits_le 16 v (by norm_num) h0
      have hlt17 : 16 ^ (Nat.digits 16 v).length < 16 ^ 17 := by
        calc 16 ^ (Nat.digits 16 v).length ≤ 16 * v := hle
          _ < 16 ^ 17 := by norm_num at hv ⊢; omega
      have := (Nat.pow_lt_pow_iff_right (by norm_num : 1 < 16)).mp hlt17
      simp only [hexDigits, NOLIMIT]
      omega
  constructor
  · rw [remotehston_eq_mod, hexRun_eq_self limit _ hlimit hall, hval]
  · rw [remotehston_eq_mod, hexRun_eq_self NOLIMIT _ h16 hall, hval]

/-- Witness of C4 on the value 0x1af with limit 3. -/
theorem C4_respond_roundtrip_witness :
    0x1af < 2 ^ 64 ∧ (payload (_respond sampleConsts 75 0x1af)).length ≤ 3 ∧
    remotehston 3 (payload (_respond sampleConsts 75 0x1af)) = 0x1af ∧
    remotehston NOLIMIT (payload (_respond sampleConsts 75 0x1af)) = 0x1af := by
  have hl : (payload (_respond sampleConsts 75 0x1af)).length ≤ 3 := by
    rw [payload_respond_eq _ _ _ (by norm_num)]
    norm_num
  exact ⟨by norm_num, hl, C4_respond_roundtrip sampleConsts 75 0x1af 3 (by norm_num) hl⟩

/-- C5, as stated, fails: for the value 0x12 the digits sent are `1` then `2`,
so the digit sent first (index 0) encodes the nibble 1, not the least
significant nibble `(v >> 0) & 0xF = 2`. -/
theorem C5_counterexample :
    payload (_respond sampleConsts 75 0x12) = [49, 50] ∧
    (payload (_respond sampleConsts 75 0x12)).getD 0 0 ≠ NTOH ((0x12 >>> (4 * 0)) &&& 0x0f) := by
  have hp : payload (_respond sampleConsts 75 0x12) = [49, 50] := by
    rw [payload_respond_eq _ _ _ (by norm_num)]
    norm_num [NTOH]
  rw [hp]
  exact ⟨rfl, by decide⟩

/-- C5, amended: the hex digits `_respond` puts on the transport appear in
most-significant-nibble-first order: of the `n` digits sent, the `i`-th
(`i` from 0) encodes the nibble `(v >> 4(n-1-i)) & 0xF`. -/
theorem C5_respond_digit_order (K : Consts) (status v i : Nat) (hv : v < 2 ^ 64)
    (hi : i < (payload (_respond K status v)).length) :
    (payload (_respond K status v)).getD i 0 =
      NTOH ((v >>> (4 * ((payload (_respond K status v)).length - 1 - i))) &&& 0x0f) := by
  rw [payload_respond, Nat.mod_eq_of_lt hv] at hi ⊢
  have hi' : (respondFill v).length - 1 - i < (respondFill v).length := by
    rw [List.length_reverse] at hi
    omega
  have hget := respondFill_getD v _ hi'
  rw [List.getD_eq_getElem _ _ hi'] at hget
  rw [List.getD_eq_getElem _ _ hi, List.getElem_reverse]
  simp only [List.length_reverse]
  exact hget

/-- Witness of C5 on the value 0x12 and its digit of index 0. -/
theorem C5_respond_digit_order_witness :
    0x12 < 2 ^ 64 ∧ 0 < (payload (_respond sampleConsts 75 0x12)).length ∧
    (payload (_respond sampleConsts 75 0x12)).getD 0 0 =
      NTOH ((0x12 >>> (4 * ((payload (_respond sampleConsts 75 0x12)).length - 1 - 0)))
        &&& 0x0f) := by
  have hl : 0 < (payload (_respond sampleConsts 75 0x12)).length := by
    rw [payload_respond_eq _ _ _ (by norm_num)]
    norm_num
  exact ⟨by norm_num, hl, C5_respond_digit_order sampleConsts 75 0x12 0 (by norm_num) hl⟩

/-- C6: for every status and every 64-bit value `v`, `_respond` sends exactly
`max(1, number of significant hex digits of v)` digits, at most 16, the first
of them not `0` unless `v = 0`; for `v = 0` it sends the single digit `0`. -/
theorem C6_respond_digit_count (K : Consts) (status v : Nat) (hv : v < 2 ^ 64) :
    (payload (_respond K status v)).length = max 1 (hexDigits v) ∧
    (payload (_respond K status v)).length ≤ 16 ∧
    (v ≠ 0 → (payload (_respond K status v)).head? ≠ some 48) ∧
    (v = 0 → payload (_respond K status v) = [48]) := by
  have hp := payload_respond_eq K status v hv
  obtain ⟨hlt, -, hlen⟩ := nibbles_props v
  have hL : (payload (_respond K status v)).length = max 1 (hexDigits v) := by
    rw [hp, List.length_reverse, List.length_map, hlen]
  refine ⟨hL, ?_, ?_, ?_⟩
  · rw [hL]
    by_cases h0 : v = 0
    · subst h0
      simp [hexDigits]
    · have hle := Nat.base_pow_length_digits_le 16 v (by norm_num) h0
      have hlt17 : 16 ^ (Nat.digits 16 v).length < 16 ^ 17 := by
        calc 16 ^ (Nat.digits 16 v).length ≤ 16 * v := hle
          _ < 16 ^ 17 := by norm_num at hv ⊢; omega
      have := (Nat.pow_lt_pow_iff_right (by norm_num : 1 < 16)).mp hlt17
      simp only [hexDigits]
      omega
  · intro h0
    rw [hp, if_neg h0, List.head?_reverse, List.getLast?_map,
      List.getLast?_eq_getLast _ (Nat.digits_ne_nil_iff_ne_zero.mpr h0)]
    have hne := Nat.getLast_digit_ne_zero 16 h0
    have hb : (Nat.digits 16 v).getLast (Nat.digits_ne_nil_iff_ne_zero.mpr h0) < 16 :=
      Nat.digits_lt_base (by norm_num) (List.getLast_mem _)
    simp only [Option.map_some', ne_eq, Option.some.injEq]
    exact (NTOH_props _ hb).2.2 hne
  · intro h0
    subst h0
    rw [hp]
    simp [NTOH]

/-- Witness of C6 on the value 0x1af. -/
theorem C6_respond_digit_count_witness :
    0x1af < 2 ^ 64 ∧
    (payload (_respond sampleConsts 75 0x1af)).length = max 1 (hexDigits 0x1af) ∧
    (payload (_respond sampleConsts 75 0x1af)).length ≤ 16 ∧
    (0x1af ≠ 0 → (payload (_respond sampleConsts 75 0x1af)).head? ≠ some 48) ∧
    (0x1af = 0 → payload (_respond sampleConsts 75 0x1af) = [48]) :=
  ⟨by norm_num, C6_respond_digit_count sampleConsts 75 0x1af (by norm_num)⟩

/-! ## The buffer response -/

theorem sendBufLoop_eq (buffer : List Nat) (len : Nat) :
    ∀ d i, len - i = d →
      sendBufLoop buffer len i =
        ((List.range' i (max 1 (len - i))).map
          (fun j => (hexPair (buffer.getD j 0)).map (fun c => Put.mk c 0))).flatten := by
  intro d
  induction d with
  | zero =>
    intro i hd
    rw [sendBufLoop, if_neg (by omega), hd]
    simp [hexPair]
  | succ d ih =>
    intro i hd
    rw [sendBufLoop]
    by_cases hlt : i + 1 < len
    · rw [if_pos hlt, ih (i + 1) (by omega)]
      have h1 : max 1 (len - (i + 1)) = len - (i + 1) := by omega
      have h2 : max 1 (len - i) = (len - (i + 1)) + 1 := by omega
      rw [h1, h2, List.range'_succ]
      simp [hexPair]
    · rw [if_neg hlt]
      have h2 : max 1 (len - i) = 1 := by omega
      rw [h2]
      simp [hexPair]

theorem payload_respond_buf (K : Consts) (respCode : Nat) (buffer : List Nat) (len : Nat) :
    payload (_respond_buf K respCode buffer len) =
      ((List.range (max 1 len)).map (fun j => hexPair (buffer.getD j 0))).flatten := by
  have h := sendBufLoop_eq buffer len len 0 rfl
  simp only [Nat.sub_zero] at h
  rw [_respond_buf, payload_frame, _send_buf, h, List.map_flatten, List.map_map,
    List.range_eq_range']
  congr 1

/-- The number of hex characters `_respond_buf` sends: a pair for each of the
`max(1, len)` bytes the do-while loop of `_send_buf` goes through. -/
theorem payload_respond_buf_length (K : Consts) (respCode : Nat) (buffer : List Nat)
    (len : Nat) : (payload (_respond_buf K respCode buffer len)).length = 2 * max 1 len := by
  rw [payload_respond_buf]
  generalize max 1 len = n
  induction n with
  | zero => simp
  | succ n ih =>
    rw [List.range_succ, List.map_append, List.flatten_append, List.length_append, ih]
    simp [hexPair]
    omega

theorem map_getD_range (b : List Nat) :
    (List.range b.length).map (fun j => b.getD j 0) = b := by
  apply List.ext_getElem
  · simp
  · intro n h1 h2
    simp only [List.getElem_map, List.getElem_range]
    exact List.getD_eq_getElem _ _ h2

theorem unhexify_cons (x1 x2 : Nat) (rest : List Nat) (n : Nat) :
    unhexify (x1 :: x2 :: rest) (n + 1) =
      (unhex_digit x1 * 16 + unhex_digit x2) :: unhexify rest n := by
  simp only [unhexify, List.range_succ_eq_map, List.map_cons, List.map_map]
  congr 1

theorem hexify_props (x : Nat) (hx : x < 256) :
    digit (hexify x).1 = x / 16 ∧ digit (hexify x).2 = x % 16 ∧
    unhex_digit (hexify x).1 * 16 + unhex_digit (hexify x).2 = x := by
  simp only [hexify, digit, unhex_digit]
  refine ⟨?_, ?_, ?_⟩
  · split_ifs <;> omega
  · split_ifs <;> omega
  · split_ifs <;> omega

theorem unhexify_hexPairs (b : List Nat) (hbyte : ∀ x ∈ b, x < 256) :
    unhexify ((b.map hexPair).flatten) b.length = b := by
  induction b with
  | nil => simp [unhexify]
  | cons x t ih =>
    have hx : x < 256 := hbyte x (List.mem_cons_self _ _)
    have ht : ∀ y ∈ t, y < 256 := fun y hy => hbyte y (List.mem_cons_of_mem _ hy)
    simp only [List.map_cons, List.flatten_cons, hexPair, List.cons_append, List.nil_append,
      List.length_cons]
    rw [unhexify_cons, (hexify_props x hx).2.2]
    congr 1
    exact ih ht

/-- C7: for every non-empty byte sequence `b`, the payload of `_respond_buf`
is the concatenation, in the order of `b`, of the two hex characters of each
byte, the high nibble first; decoding it pair by pair yields `b` again; and
`[0xAB, 0xCD]` gives the text `ABCD`. -/
theorem C7_respond_buf_order (K : Consts) (status : Nat) (b : List Nat) (hne : b ≠ [])
    (hbyte : ∀ x ∈ b, x < 256) :
    payload (_respond_buf K status b b.length) = (b.map hexPair).flatten ∧
    (∀ x ∈ b, hexPair x = [(hexify x).1, (hexify x).2] ∧
      digit (hexify x).1 = x / 16 ∧ digit (hexify x).2 = x % 16) ∧
    unhexify (payload (_respond_buf K status b b.length)) b.length = b ∧
    payload (_respond_buf K status [0xAB, 0xCD] 2) = [65, 66, 67, 68] := by
  have hlen : max 1 b.length = b.length := by
    have : 0 < b.length := List.length_pos.mpr hne
    omega
  have hp : payload (_respond_buf K status b b.length) = (b.map hexPair).flatten := by
    rw [payload_respond_buf, hlen]
    conv_rhs => rw [← map_getD_range b]
    rw [List.map_map]
    rfl
  refine ⟨hp, ?_, ?_, ?_⟩
  · intro x hx
    exact ⟨rfl, (hexify_props x (hbyte x hx)).1, (hexify_props x (hbyte x hx)).2.1⟩
  · rw [hp]
    exact unhexify_hexPairs b hbyte
  · rw [payload_respond_buf]
    decide

/-- Witness of C7 on the bytes `[0xAB, 0xCD]`. -/
theorem C7_respond_buf_order_witness :
    [0xAB, 0xCD] ≠ ([] : List Nat) ∧ (∀ x ∈ [0xAB, 0xCD], x < 256) ∧
    payload (_respond_buf sampleConsts 75 [0xAB, 0xCD] [0xAB, 0xCD].length) =
      ([0xAB, 0xCD].map hexPair).flatten ∧
    (∀ x ∈ [0xAB, 0xCD], hexPair x = [(hexify x).1, (hexify x).2] ∧
      digit (hexify x).1 = x / 16 ∧ digit (hexify x).2 = x % 16) ∧
    unhexify (payload (_respond_buf sampleConsts 75 [0xAB, 0xCD] [0xAB, 0xCD].length))
      [0xAB, 0xCD].length = [0xAB, 0xCD] ∧
    payload (_respond_buf sampleConsts 75 [0xAB, 0xCD] 2) = [65, 66, 67, 68] :=
  ⟨by decide, by decide,
    C7_respond_buf_order sampleConsts 75 [0xAB, 0xCD] (by decide) (by decide)⟩

/-- C8 at the empty sequence: a Memory Read with count 0 against an attached
target whose read succeeds calls `_respond_buf` with `len = 0`, and the
response carries the two hex characters `00` between the status byte and the
terminator, not none. -/
theorem C8_respond_buf_empty :
    (remotePacketProcess sampleConsts (sampleEnv (ScanOutcome.returned 1)) (some 1) 18
        memReadZeroPacket).1 =
      [Call.SET_IDLE_STATE 0, Call.target_mem_read 1 0 0,
       Call.respond_buf 75 [0, 0, 0, 0] 0, Call.SET_IDLE_STATE 1] ∧
    payload (_respond_buf sampleConsts 75 [0, 0, 0, 0] 0) = [48, 48] ∧
    (payload (_respond_buf sampleConsts 75 [0, 0, 0, 0] 0)).length ≠ 2 * 0 := by
  refine ⟨by decide, ?_, ?_⟩
  · rw [payload_respond_buf]
    decide
  · rw [payload_respond_buf_length]
    decide

/-! ## The string response -/

theorem respondSLoop_eq (K : Consts) (text : List Nat) (hnul : ∀ c ∈ text, c ≠ 0) :
    respondSLoop K text = text.map (fun c => Put.mk (clobber K c) 0) := by
  induction text with
  | nil => rfl
  | cons c t ih =>
    have hc : c ≠ 0 := hnul c (List.mem_cons_self _ _)
    have ht : ∀ x ∈ t, x ≠ 0 := fun x hx => hnul x (List.mem_cons_of_mem _ hx)
    rw [respondSLoop, if_neg hc, ih ht, List.map_cons]
    congr 1
    unfold clobber
    split <;> rfl

theorem payload_respondS (K : Consts) (respCode : Nat) (text : List Nat)
    (hnul : ∀ c ∈ text, c ≠ 0) :
    payload (_respondS K respCode text) = text.map (clobber K) := by
  rw [_respondS, payload_frame, respondSLoop_eq K text hnul, List.map_map]
  rfl

/-- C9, as stated, fails: with the response marker `&` of `sampleConsts`, the
text `A&` is sent unchanged, so the payload contains `REMOTE_RESP`. -/
theorem C9_counterexample :
    payload (_respondS sampleConsts 75 [65, 38]) = [65, 38] ∧
    sampleConsts.REMOTE_RESP ∈ payload (_respondS sampleConsts 75 [65, 38]) := by
  decide

/-- C9, amended: for every status and every text, the payload of `_respondS`
is the text with each `$`, `REMOTE_SOM` and `REMOTE_EOM` replaced by a blank
and every other character (the response marker `REMOTE_RESP` too, when it is
none of these) unchanged; it has the length of the text and, the markers not
being the blank, contains none of `$`, `REMOTE_SOM`, `REMOTE_EOM`. -/
theorem C9_respondS_clobber (K : Consts) (status : Nat) (text : List Nat)
    (hnul : ∀ c ∈ text, c ≠ 0) (hsom : K.REMOTE_SOM ≠ 32) (heom : K.REMOTE_EOM ≠ 32) :
    payload (_respondS K status text) = text.map (clobber K) ∧
    (payload (_respondS K status text)).length = text.length ∧
    36 ∉ payload (_respondS K status text) ∧
    K.REMOTE_SOM ∉ payload (_respondS K status text) ∧
    K.REMOTE_EOM ∉ payload (_respondS K status text) := by
  have hp := payload_respondS K status text hnul
  have hmem : ∀ x ∈ payload (_respondS K status text),
      x ≠ 36 ∧ x ≠ K.REMOTE_SOM ∧ x ≠ K.REMOTE_EOM := by
    intro x hx
    rw [hp, List.mem_map] at hx
    obtain ⟨c, -, rfl⟩ := hx
    unfold clobber
    split_ifs with h
    · exact ⟨by decide, fun e => hsom e.symm, fun e => heom e.symm⟩
    · exact ⟨fun e => h (Or.inl e), fun e => h (Or.inr (Or.inl e)),
        fun e => h (Or.inr (Or.inr e))⟩
  refine ⟨hp, ?_, ?_, ?_, ?_⟩
  · rw [hp, List.length_map]
  · exact fun h => (hmem _ h).1 rfl
  · exact fun h => (hmem _ h).2.1 rfl
  · exact fun h => (hmem _ h).2.2 rfl

/-- Witness of C9 on the text `a$!#&` under `sampleConsts`. -/
theorem C9_respondS_clobber_witness :
    payload (_respondS sampleConsts 75 [97, 36, 33, 35, 38]) =
      [97, 36, 33, 35, 38].map (clobber sampleConsts) ∧
    (payload (_respondS sampleConsts 75 [97, 36, 33, 35, 38])).length =
      [97, 36, 33, 35, 38].length ∧
    36 ∉ payload (_respondS sampleConsts 75 [97, 36, 33, 35, 38]) ∧
    sampleConsts.REMOTE_SOM ∉ payload (_respondS sampleConsts 75 [97, 36, 33, 35, 38]) ∧
    sampleConsts.REMOTE_EOM ∉ payload (_respondS sampleConsts 75 [97, 36, 33, 35, 38]) :=
  C9_respondS_clobber sampleConsts 75 [97, 36, 33, 35, 38] (by decide) (by decide) (by decide)

/-! ## Framing -/

theorem framed_of_map (K : Consts) (status : Nat) (l : List Nat) :
    Framed K status ([Put.mk K.REMOTE_RESP 0] ++ [Put.mk status 0] ++
      l.map (fun c => Put.mk c 0) ++ [Put.mk K.REMOTE_EOM 1]) := by
  refine ⟨?_, ?_, ?_⟩
  · rw [payload_frame, List.map_map, List.map_map]
    rfl
  · exact List.getLast?_concat _
  · simp [List.filter_cons, List.filter_map, Function.comp_def]

theorem respondSLoop_flush (K : Consts) (s : List Nat) :
    ∃ l : List Nat, respondSLoop K s = l.map (fun c => Put.mk c 0) := by
  induction s with
  | nil => exact ⟨[], rfl⟩
  | cons c t ih =>
    obtain ⟨l, hl⟩ := ih
    rw [respondSLoop]
    by_cases hc : c = 0
    · exact ⟨[], by rw [if_pos hc]; rfl⟩
    · rw [if_neg hc, hl]
      by_cases hm : c = 36 ∨ c = K.REMOTE_SOM ∨ c = K.REMOTE_EOM
      · exact ⟨32 :: l, by rw [if_pos hm]; rfl⟩
      · exact ⟨c :: l, by rw [if_neg hm]; rfl⟩

/-- C10: every response written by `_respond`, `_respond_buf` and `_respondS`
is the byte sequence `REMOTE_RESP`, the status byte passed in, the payload,
`REMOTE_EOM`; the terminator is the last byte sent and the only byte sent with
the last-of-response flag set. -/
theorem C10_response_framing (K : Consts) (status param : Nat) (buffer : List Nat)
    (len : Nat) (s : List Nat) :
    Framed K status (_respond K status param) ∧
    Framed K status (_respond_buf K status buffer len) ∧
    Framed K status (_respondS K status s) := by
  refine ⟨?_, ?_, ?_⟩
  · rw [_respond]
    simp only [respondSpool_eq _ _ (Nat.le_refl _), List.take_length]
    exact framed_of_map K status _
  · have h := sendBufLoop_eq buffer len len 0 rfl
    have h' : sendBufLoop buffer len 0 =
        (((List.range' 0 (max 1 (len - 0))).map
          (fun j => hexPair (buffer.getD j 0))).flatten).map (fun c => Put.mk c 0) := by
      rw [h, List.map_flatten, List.map_map]
      rfl
    rw [_respond_buf, _send_buf, h']
    exact framed_of_map K status _
  · obtain ⟨l, hl⟩ := respondSLoop_flush K s
    rw [_respondS, hl]
    exact framed_of_map K status l

/-! ## One response per command -/

theorem responses_SWD (K : Consts) (env : Env) (i : Nat) (packet : List Nat) :
    responses (remotePacketProcessSWD K env i packet) = 1 := by
  unfold remotePacketProcessSWD
  simp only []
  split_ifs <;> simp [responses, Call.isResponse]

theorem responses_JTAG (K : Consts) (env : Env) (i : Nat) (packet : List Nat) :
    responses (remotePacketProcessJTAG K env i packet) = 1 := by
  unfold remotePacketProcessJTAG
  simp only []
  split_ifs <;> simp [responses, Call.isResponse]

theorem responses_GEN (K : Consts) (env : Env) (i : Nat) (packet : List Nat) :
    responses (remotePacketProcessGEN K env i packet) = 1 := by
  unfold remotePacketProcessGEN
  simp only []
  split_ifs <;> simp [responses, Call.isResponse]

theorem responses_hlMemRead (K : Consts) (env : Env) (cur_target : Option Nat)
    (packet : List Nat) : responses (hlMemRead K env cur_target packet) = 1 := by
  unfold hlMemRead
  cases cur_target with
  | none => simp [responses, Call.isResponse]
  | some t =>
    simp only []
    split_ifs <;> simp [responses, Call.isResponse]

theorem responses_hlMemWrite (K : Consts) (env : Env) (cur_target : Option Nat)
    (packet : List Nat) : responses (hlMemWrite K env cur_target packet) = 1 := by
  unfold hlMemWrite
  cases cur_target with
  | none => simp [responses, Call.isResponse]
  | some t =>
    simp only []
    split_ifs <;> simp [responses, Call.isResponse]

/-- The number of responses of the Scan/Attach block: one when the scan
returns, two when it raises an exception. -/
theorem responses_hlInitSwdp (K : Consts) (env : Env) (cur_target : Option Nat) :
    responses (hlInitSwdp K env cur_target).1 =
      match env.adiv5_swdp_scan with
      | ScanOutcome.returned _ => 1
      | ScanOutcome.raised_TIMEOUT => 2
      | ScanOutcome.raised_ERROR => 2 := by
  unfold hlInitSwdp
  cases env.adiv5_swdp_scan with
  | returned d =>
    simp only []
    split_ifs <;> simp [responses, Call.isResponse]
  | raised_TIMEOUT => simp [responses, Call.isResponse]
  | raised_ERROR => simp [responses, Call.isResponse]

/-- Every command whose device scan, if any, returns gets exactly one
response. -/
theorem responses_of_scan_returned (K : Consts) (env : Env) (cur_target : Option Nat)
    (i : Nat) (packet : List Nat) (d : Int)
    (hscan : env.adiv5_swdp_scan = ScanOutcome.returned d) :
    responses (remotePacketProcess K env cur_target i packet).1 = 1 := by
  have hinit := responses_hlInitSwdp K env cur_target
  rw [hscan] at hinit
  have hHL : responses (remotePacketProcessHL K env cur_target i packet).1 = 1 := by
    have hsw : responses (hlSwitch K env cur_target packet).1 = 1 := by
      unfold hlSwitch
      simp only []
      split_ifs
      · exact hinit
      · exact responses_hlMemRead K env cur_target packet
      · exact responses_hlMemWrite K env cur_target packet
      · cases cur_target <;> simp [responses, Call.isResponse]
      · cases cur_target <;> simp [responses, Call.isResponse]
      · cases cur_target <;> simp [responses, Call.isResponse]
      · simp [responses, Call.isResponse]
    unfold remotePacketProcessHL
    simp only [responses, List.countP_append, List.countP_cons, List.countP_nil] at hsw ⊢
    simpa [Call.isResponse] using hsw
  unfold remotePacketProcess
  simp only []
  split_ifs
  · exact responses_SWD K env i packet
  · exact responses_JTAG K env i packet
  · exact responses_GEN K env i packet
  · exact hHL
  · simp [responses, Call.isResponse]

/-- C1 at the failing input: on a high-level Scan/Attach command whose device
scan raises a timeout, `remotePacketProcess` calls `_respond` twice (once in
`switch (e.type)`, once more under `devs <= 0`), so two framed responses are
sent for the one command. -/
theorem C1_scan_timeout_two_responses :
    (remotePacketProcess sampleConsts (sampleEnv ScanOutcome.raised_TIMEOUT) none 2
        [72, 115]).1 =
      [Call.SET_IDLE_STATE 0, Call.swdptap_init, Call.adiv5_swdp_scan,
       Call.respond 69 0, Call.respond 69 0, Call.SET_IDLE_STATE 1] ∧
    responses (remotePacketProcess sampleConsts (sampleEnv ScanOutcome.raised_TIMEOUT) none 2
        [72, 115]).1 = 2 := by
  decide

/-! ## Long input to the hex parser -/

theorem beValue_append (a b : List Nat) :
    beValue (a ++ b) = beValue a * 16 ^ b.length + beValue b := by
  induction a with
  | nil => simp [beValue]
  | cons x t ih =>
    rw [List.cons_append, beValue, beValue, ih, List.length_append, pow_add]
    ring

/-- C20: on a string whose leading run of hex digits (within `limit`) has more
than 16 digits, `remotehston` returns the big-endian value of all the digits
of the run reduced mod 2^64, which is the value of the last 16 digits of the
run alone. -/
theorem C20_remotehston_wraps (limit : Nat) (s : List Nat)
    (hm : 16 < (hexRun limit s).length) :
    remotehston limit s = beValue (hexRun limit s) % 2 ^ 64 ∧
    beValue (hexRun limit s) % 2 ^ 64 =
      beValue ((hexRun limit s).drop ((hexRun limit s).length - 16)) := by
  refine ⟨remotehston_eq_mod limit s, ?_⟩
  generalize hexRun limit s = ds at hm
  have hlen : (ds.drop (ds.length - 16)).length = 16 := by
    rw [List.length_drop]
    omega
  have hlt := beValue_lt (ds.drop (ds.length - 16))
  rw [hlen] at hlt
  conv_lhs => rw [← List.take_append_drop (ds.length - 16) ds]
  rw [beValue_append, hlen]
  have h16 : (16 : Nat) ^ 16 = 2 ^ 64 := by norm_num
  rw [h16] at hlt ⊢
  rw [Nat.mul_add_mod_of_lt hlt]

/-- Witness of C20 on the 17 digits `1`, then 16 times `2`, with no limit. -/
theorem C20_remotehston_wraps_witness :
    16 < (hexRun NOLIMIT [49, 50, 50, 50, 50, 50, 50, 50, 50, 50, 50, 50, 50, 50, 50, 50,
      50]).length ∧
    remotehston NOLIMIT [49, 50, 50, 50, 50, 50, 50, 50, 50, 50, 50, 50, 50, 50, 50, 50, 50] =
      beValue (hexRun NOLIMIT [49, 50, 50, 50, 50, 50, 50, 50, 50, 50, 50, 50, 50, 50, 50, 50,
        50]) % 2 ^ 64 ∧
    beValue (hexRun NOLIMIT [49, 50, 50, 50, 50, 50, 50, 50, 50, 50, 50, 50, 50, 50, 50, 50,
        50]) % 2 ^ 64 =
      beValue ((hexRun NOLIMIT [49, 50, 50, 50, 50, 50, 50, 50, 50, 50, 50, 50, 50, 50, 50, 50,
        50]).drop ((hexRun NOLIMIT [49, 50, 50, 50, 50, 50, 50, 50, 50, 50, 50, 50, 50, 50, 50,
        50, 50]).length - 16)) :=
  ⟨by decide, C20_remotehston_wraps NOLIMIT
    [49, 50, 50, 50, 50, 50, 50, 50, 50, 50, 50, 50, 50, 50, 50, 50, 50] (by decide)⟩

/-! ## Commands without a Current Target -/

theorem hlSwitch_absent (K : Consts) (env : Env) (packet : List Nat)
    (hcmd : packet.getD 1 0 = K.REMOTE_MEM_READ ∨ packet.getD 1 0 = K.REMOTE_MEM_WRITE ∨
      packet.getD 1 0 = K.REMOTE_REG_READ ∨ packet.getD 1 0 = K.REMOTE_REG_WRITE ∨
      packet.getD 1 0 = K.REMOTE_RESET)
    (hscan : packet.getD 1 0 ≠ K.REMOTE_INIT_SWDP) :
    hlSwitch K env none packet = ([Call.respond K.REMOTE_RESP_ERR 0], none) := by
  unfold hlSwitch
  simp only [if_neg hscan]
  split_ifs with h1 h2 h3 h4 h5
  · simp [hlMemRead]
  · simp [hlMemWrite]
  · rfl
  · rfl
  · rfl
  · rcases hcmd with h | h | h | h | h <;> contradiction

/-- C11: with no Current Target, a high-level Memory Read, Memory Write,
Register Read, Register Write or Target Reset command responds with status
ERR whatever its address, count, register and data fields are, and makes no
call into the target layer. -/
theorem C11_absent_target (K : Consts) (env : Env) (i : Nat) (packet : List Nat)
    (hcmd : packet.getD 1 0 = K.REMOTE_MEM_READ ∨ packet.getD 1 0 = K.REMOTE_MEM_WRITE ∨
      packet.getD 1 0 = K.REMOTE_REG_READ ∨ packet.getD 1 0 = K.REMOTE_REG_WRITE ∨
      packet.getD 1 0 = K.REMOTE_RESET)
    (hscan : packet.getD 1 0 ≠ K.REMOTE_INIT_SWDP) :
    remotePacketProcessHL K env none i packet =
      ([Call.SET_IDLE_STATE 0, Call.respond K.REMOTE_RESP_ERR 0, Call.SET_IDLE_STATE 1],
        none) ∧
    (∀ c ∈ (remotePacketProcessHL K env none i packet).1, c.isTargetOp = false) ∧
    (∀ c ∈ (remotePacketProcessHL K env none i packet).1,
      c.isResponse = true → c.status = some K.REMOTE_RESP_ERR) ∧
    responses (remotePacketProcessHL K env none i packet).1 = 1 := by
  have h : remotePacketProcessHL K env none i packet =
      ([Call.SET_IDLE_STATE 0, Call.respond K.REMOTE_RESP_ERR 0, Call.SET_IDLE_STATE 1],
        none) := by
    unfold remotePacketProcessHL
    rw [hlSwitch_absent K env packet hcmd hscan]
    rfl
  rw [h]
  refine ⟨rfl, ?_, ?_, ?_⟩
  · intro c hc
    simp only [List.mem_cons, List.mem_singleton, List.not_mem_nil, or_false] at hc
    rcases hc with rfl | rfl | rfl <;> rfl
  · intro c hc _
    simp only [List.mem_cons, List.mem_singleton, List.not_mem_nil, or_false] at hc
    rcases hc with rfl | rfl | rfl <;> simp_all [Call.isResponse, Call.status]
  · simp [responses, Call.isResponse]

/-- Witness of C11 on a Memory Write command under `sampleConsts`. -/
theorem C11_absent_target_witness :
    remotePacketProcessHL sampleConsts (sampleEnv (ScanOutcome.returned 1)) none 4
        [72, 77, 48, 49] =
      ([Call.SET_IDLE_STATE 0, Call.respond sampleConsts.REMOTE_RESP_ERR 0,
        Call.SET_IDLE_STATE 1], none) ∧
    (∀ c ∈ (remotePacketProcessHL sampleConsts (sampleEnv (ScanOutcome.returned 1)) none 4
        [72, 77, 48, 49]).1, c.isTargetOp = false) ∧
    (∀ c ∈ (remotePacketProcessHL sampleConsts (sampleEnv (ScanOutcome.returned 1)) none 4
        [72, 77, 48, 49]).1,
      c.isResponse = true → c.status = some sampleConsts.REMOTE_RESP_ERR) ∧
    responses (remotePacketProcessHL sampleConsts (sampleEnv (ScanOutcome.returned 1)) none 4
        [72, 77, 48, 49]).1 = 1 :=
  C11_absent_target sampleConsts (sampleEnv (ScanOutcome.returned 1)) 4 [72, 77, 48, 49]
    (by decide) (by decide)

/-! ## Scan/Attach with a scan that times out -/

theorem remotePacketProcessHL_timeout (K : Consts) (env : Env) (cur_target : Option Nat)
    (i : Nat) (packet : List Nat) (hsub : packet.getD 1 0 = K.REMOTE_INIT_SWDP)
    (hscan : env.adiv5_swdp_scan = ScanOutcome.raised_TIMEOUT) :
    remotePacketProcessHL K env cur_target i packet =
      ([Call.SET_IDLE_STATE 0, Call.swdptap_init, Call.adiv5_swdp_scan,
        Call.respond K.REMOTE_RESP_ERR 0, Call.respond K.REMOTE_RESP_ERR 0,
        Call.SET_IDLE_STATE 1], cur_target) := by
  unfold remotePacketProcessHL hlSwitch
  simp only [hsub, if_true]
  unfold hlInitSwdp
  rw [hscan]
  simp

/-- C12: starting with no Current Target, a high-level Scan/Attach command
whose device scan raises a timeout responds with status ERR only (both calls of
`_respond` it makes carry ERR, none carries OK), does not call
`target_attach_n`, and leaves the Current Target unset, so that a Memory Read
issued next responds with status ERR. -/
theorem C12_scan_timeout (K : Consts) (env env' : Env) (i i' : Nat) (packet packet' : List Nat)
    (hsub : packet.getD 1 0 = K.REMOTE_INIT_SWDP)
    (hscan : env.adiv5_swdp_scan = ScanOutcome.raised_TIMEOUT)
    (hread : packet'.getD 1 0 = K.REMOTE_MEM_READ)
    (hne : K.REMOTE_MEM_READ ≠ K.REMOTE_INIT_SWDP)
    (hcodes : K.REMOTE_RESP_ERR ≠ K.REMOTE_RESP_OK) :
    (∀ c ∈ (remotePacketProcessHL K env none i packet).1,
      c.isResponse = true → c.status = some K.REMOTE_RESP_ERR) ∧
    (∃ c ∈ (remotePacketProcessHL K env none i packet).1, c.isResponse = true) ∧
    (∀ c ∈ (remotePacketProcessHL K env none i packet).1,
      c.status ≠ some K.REMOTE_RESP_OK) ∧
    (∀ n, Call.target_attach_n n ∉ (remotePacketProcessHL K env none i packet).1) ∧
    (remotePacketProcessHL K env none i packet).2 = none ∧
    remotePacketProcessHL K env' (remotePacketProcessHL K env none i packet).2 i' packet' =
      ([Call.SET_IDLE_STATE 0, Call.respond K.REMOTE_RESP_ERR 0, Call.SET_IDLE_STATE 1],
        none) := by
  rw [remotePacketProcessHL_timeout K env none i packet hsub hscan]
  refine ⟨?_, ?_, ?_, ?_, rfl, ?_⟩
  · intro c hc _
    simp only [List.mem_cons, List.mem_singleton, List.not_mem_nil, or_false] at hc
    rcases hc with rfl | rfl | rfl | rfl | rfl | rfl <;>
      simp_all [Call.isResponse, Call.status]
  · exact ⟨Call.respond K.REMOTE_RESP_ERR 0, by simp, rfl⟩
  · intro c hc
    simp only [List.mem_cons, List.mem_singleton, List.not_mem_nil, or_false] at hc
    rcases hc with rfl | rfl | rfl | rfl | rfl | rfl <;> simp [Call.status, hcodes]
  · intro n
    simp
  · unfold remotePacketProcessHL
    rw [hlSwitch_absent K env' packet' (Or.inl hread) (by rw [hread]; exact hne)]
    rfl

/-- Witness of C12 under `sampleConsts`: the command `Hs` with a scan that
times out, then a Memory Read. -/
theorem C12_scan_timeout_witness :
    (∀ c ∈ (remotePacketProcessHL sampleConsts (sampleEnv ScanOutcome.raised_TIMEOUT) none 2
        [72, 115]).1, c.isResponse = true → c.status = some sampleConsts.REMOTE_RESP_ERR) ∧
    (∃ c ∈ (remotePacketProcessHL sampleConsts (sampleEnv ScanOutcome.raised_TIMEOUT) none 2
        [72, 115]).1, c.isResponse = true) ∧
    (∀ c ∈ (remotePacketProcessHL sampleConsts (sampleEnv ScanOutcome.raised_TIMEOUT) none 2
        [72, 115]).1, c.status ≠ some sampleConsts.REMOTE_RESP_OK) ∧
    (∀ n, Call.target_attach_n n ∉
      (remotePacketProcessHL sampleConsts (sampleEnv ScanOutcome.raised_TIMEOUT) none 2
        [72, 115]).1) ∧
    (remotePacketProcessHL sampleConsts (sampleEnv ScanOutcome.raised_TIMEOUT) none 2
        [72, 115]).2 = none ∧
    remotePacketProcessHL sampleConsts (sampleEnv (ScanOutcome.returned 1))
        (remotePacketProcessHL sampleConsts (sampleEnv ScanOutcome.raised_TIMEOUT) none 2
          [72, 115]).2 18 memReadZeroPacket =
      ([Call.SET_IDLE_STATE 0, Call.respond sampleConsts.REMOTE_RESP_ERR 0,
        Call.SET_IDLE_STATE 1], none) :=
  C12_scan_timeout sampleConsts (sampleEnv ScanOutcome.raised_TIMEOUT)
    (sampleEnv (ScanOutcome.returned 1)) 2 18 [72, 115] memReadZeroPacket
    (by decide) (by decide) (by decide) (by decide) (by decide)

/-! ## Length check of the JTAG TMS sequence -/

/-- C13, as stated, fails: the TMS-Sequence command `JT012` holds 3 bytes after
the class and sub-command bytes, one short of 4, its length is `i = 5`, and
`remotePacketProcessJTAG` calls `jtagtap_tms_seq` and responds OK. -/
theorem C13_counterexample :
    [74, 84, 48, 49, 50].length - 2 < 4 ∧
    remotePacketProcessJTAG sampleConsts (sampleEnv (ScanOutcome.returned 1))
        [74, 84, 48, 49, 50].length [74, 84, 48, 49, 50] =
      [Call.jtagtap_tms_seq 2 1, Call.respond sampleConsts.REMOTE_RESP_OK 0] := by
  decide

/-- C13, amended: a JTAG TMS-Sequence command whose buffer holds fewer than 4
bytes in all, the class and sub-command bytes included (`i < 4`), gets the
response ERR with the WRONGLEN detail and no tap operation is performed; from
4 bytes on, `jtagtap_tms_seq` is called and the response is OK. -/
theorem C13_tms_wrong_length (K : Consts) (env : Env) (i : Nat) (packet : List Nat)
    (hsub : packet.getD 1 0 = K.REMOTE_TMS)
    (hinit : K.REMOTE_TMS ≠ K.REMOTE_INIT) (hreset : K.REMOTE_TMS ≠ K.REMOTE_RESET) :
    (i < 4 →
      remotePacketProcessJTAG K env i packet =
        [Call.respond K.REMOTE_RESP_ERR K.REMOTE_ERROR_WRONGLEN] ∧
      ∀ c ∈ remotePacketProcessJTAG K env i packet, c.isTapOp = false) ∧
    (4 ≤ i →
      remotePacketProcessJTAG K env i packet =
        [Call.jtagtap_tms_seq (remotehston 2 (packet.drop 4) % 2 ^ 32)
           (remotehston 2 (packet.drop 2) % 2 ^ 8),
         Call.respond K.REMOTE_RESP_OK 0]) := by
  have h1 : packet.getD 1 0 ≠ K.REMOTE_INIT := by rw [hsub]; exact hinit
  have h2 : packet.getD 1 0 ≠ K.REMOTE_RESET := by rw [hsub]; exact hreset
  constructor
  · intro hi
    have h : remotePacketProcessJTAG K env i packet =
        [Call.respond K.REMOTE_RESP_ERR K.REMOTE_ERROR_WRONGLEN] := by
      unfold remotePacketProcessJTAG
      simp only [if_neg h1, if_neg h2, if_pos hsub, if_pos hi]
    rw [h]
    refine ⟨rfl, ?_⟩
    intro c hc
    simp only [List.mem_singleton] at hc
    subst hc
    rfl
  · intro hi
    unfold remotePacketProcessJTAG
    simp only [if_neg h1, if_neg h2, if_pos hsub, if_neg (Nat.not_lt.mpr hi)]

/-- Witness of C13 under `sampleConsts`: the command `JT0`, of 3 bytes. -/
theorem C13_tms_wrong_length_witness :
    (3 < 4 →
      remotePacketProcessJTAG sampleConsts (sampleEnv (ScanOutcome.returned 1)) 3
          [74, 84, 48] =
        [Call.respond sampleConsts.REMOTE_RESP_ERR sampleConsts.REMOTE_ERROR_WRONGLEN] ∧
      ∀ c ∈ remotePacketProcessJTAG sampleConsts (sampleEnv (ScanOutcome.returned 1)) 3
          [74, 84, 48], c.isTapOp = false) ∧
    (4 ≤ 3 →
      remotePacketProcessJTAG sampleConsts (sampleEnv (ScanOutcome.returned 1)) 3
          [74, 84, 48] =
        [Call.jtagtap_tms_seq (remotehston 2 ([74, 84, 48].drop 4) % 2 ^ 32)
           (remotehston 2 ([74, 84, 48].drop 2) % 2 ^ 8),
         Call.respond sampleConsts.REMOTE_RESP_OK 0]) :=
  C13_tms_wrong_length sampleConsts (sampleEnv (ScanOutcome.returned 1)) 3 [74, 84, 48]
    (by decide) (by decide) (by decide)

/-! ## Unknown packet class -/

/-- C14: on a command buffer whose byte 0 is none of the four packet-class
values, `remotePacketProcess` makes the single call
`_respond(REMOTE_RESP_ERR, REMOTE_ERROR_UNRECOGNISED)`: no handler runs, no
tap, target or platform operation is made, and the Current Target is
unchanged. -/
theorem C14_unknown_class (K : Consts) (env : Env) (cur_target : Option Nat) (i : Nat)
    (packet : List Nat)
    (hswd : packet.getD 0 0 ≠ K.REMOTE_SWDP_PACKET)
    (hjtag : packet.getD 0 0 ≠ K.REMOTE_JTAG_PACKET)
    (hgen : packet.getD 0 0 ≠ K.REMOTE_GEN_PACKET)
    (hhl : packet.getD 0 0 ≠ K.REMOTE_HL_PACKET) :
    remotePacketProcess K env cur_target i packet =
      ([Call.respond K.REMOTE_RESP_ERR K.REMOTE_ERROR_UNRECOGNISED], cur_target) ∧
    wire K (remotePacketProcess K env cur_target i packet).1 =
      _respond K K.REMOTE_RESP_ERR K.REMOTE_ERROR_UNRECOGNISED ∧
    (∀ c ∈ (remotePacketProcess K env cur_target i packet).1,
      c.isTapOp = false ∧ c.isTargetOp = false ∧ c.isPlatformOp = false ∧
      c.isIdleSet = false) := by
  have h : remotePacketProcess K env cur_target i packet =
      ([Call.respond K.REMOTE_RESP_ERR K.REMOTE_ERROR_UNRECOGNISED], cur_target) := by
    unfold remotePacketProcess
    simp only [if_neg hswd, if_neg hjtag, if_neg hgen, if_neg hhl]
  rw [h]
  refine ⟨rfl, ?_, ?_⟩
  · simp [wire, Call.wire]
  · intro c hc
    simp only [List.mem_singleton] at hc
    subst hc
    exact ⟨rfl, rfl, rfl, rfl⟩

/-- Witness of C14 under `sampleConsts`: the command `X1`. -/
theorem C14_unknown_class_witness :
    remotePacketProcess sampleConsts (sampleEnv (ScanOutcome.returned 1)) (some 7) 2 [88, 49] =
      ([Call.respond sampleConsts.REMOTE_RESP_ERR sampleConsts.REMOTE_ERROR_UNRECOGNISED],
        some 7) ∧
    wire sampleConsts
        (remotePacketProcess sampleConsts (sampleEnv (ScanOutcome.returned 1)) (some 7) 2
          [88, 49]).1 =
      _respond sampleConsts sampleConsts.REMOTE_RESP_ERR
        sampleConsts.REMOTE_ERROR_UNRECOGNISED ∧
    (∀ c ∈ (remotePacketProcess sampleConsts (sampleEnv (ScanOutcome.returned 1)) (some 7) 2
        [88, 49]).1,
      c.isTapOp = false ∧ c.isTargetOp = false ∧ c.isPlatformOp = false ∧
      c.isIdleSet = false) :=
  C14_unknown_class sampleConsts (sampleEnv (ScanOutcome.returned 1)) (some 7) 2 [88, 49]
    (by decide) (by decide) (by decide) (by decide)

/-! ## Memory Read that succeeds -/

theorem respond_buf_eq (K : Consts) (respCode : Nat) (buffer : List Nat) (len : Nat) :
    _respond_buf K respCode buffer len =
      [Put.mk K.REMOTE_RESP 0] ++ [Put.mk respCode 0] ++
        (((List.range (max 1 len)).map (fun j => hexPair (buffer.getD j 0))).flatten).map
          (fun c => Put.mk c 0) ++ [Put.mk K.REMOTE_EOM 1] := by
  have h := sendBufLoop_eq buffer len len 0 rfl
  rw [_respond_buf, _send_buf, h, List.map_flatten, List.map_map, List.range_eq_range',
    Nat.sub_zero]
  rfl

theorem stored_getD (init data : List Nat) (len k : Nat) (hk : k < len) :
    (stored init data len).getD k 0 = data.getD k 0 := by
  have hlen : k < (stored init data len).length := by
    simp only [stored, List.length_map, List.length_range]
    omega
  rw [List.getD_eq_getElem _ _ hlen]
  simp only [stored, List.getElem_map, List.getElem_range, if_pos hk]

theorem respond_buf_stored (K : Consts) (respCode : Nat) (init data : List Nat) (n : Nat)
    (hn : 1 ≤ n) :
    _respond_buf K respCode (stored init data n) n =
      [Put.mk K.REMOTE_RESP 0] ++ [Put.mk respCode 0] ++
        (((firstBytes data n).map hexPair).flatten).map (fun c => Put.mk c 0) ++
        [Put.mk K.REMOTE_EOM 1] := by
  have hmax : max 1 n = n := by omega
  rw [respond_buf_eq, hmax, firstBytes, List.map_map]
  congr 4
  apply List.map_congr_left
  intro k hk
  simp only [List.mem_range] at hk
  simp only [Function.comp, stored_getD init data n k hk]

theorem hexPairs_length (bs : List Nat) : ((bs.map hexPair).flatten).length = 2 * bs.length := by
  induction bs with
  | nil => rfl
  | cons b t ih =>
    rw [List.map_cons, List.flatten_cons, List.length_append, ih, List.length_cons]
    simp only [hexPair, List.length_cons, List.length_nil]
    omega

theorem hlMemRead_some (K : Consts) (env : Env) (t : Nat) (packet : List Nat) :
    hlMemRead K env (some t) packet =
      if memCount packet ≤ 4 then
        if (env.target_mem_read t (memAddress packet) (memCount packet)).1 ≠ 0 then
          [Call.target_mem_read t (memAddress packet) (memCount packet),
           Call.respond K.REMOTE_RESP_ERR 0]
        else
          [Call.target_mem_read t (memAddress packet) (memCount packet),
           Call.respond_buf K.REMOTE_RESP_OK
             (stored [0, 0, 0, 0]
               (env.target_mem_read t (memAddress packet) (memCount packet)).2
               (memCount packet)) (memCount packet)]
      else if ¬ env.malloc (memCount packet) then
        [Call.malloc (memCount packet), Call.respond K.REMOTE_RESP_ERR 0]
      else
        [Call.malloc (memCount packet),
         Call.target_mem_read t (memAddress packet) (memCount packet)] ++
          (if (env.target_mem_read t (memAddress packet) (memCount packet)).1 ≠ 0 then
             [Call.respond K.REMOTE_RESP_ERR 0]
           else
             [Call.respond_buf K.REMOTE_RESP_OK
               (stored [] (env.target_mem_read t (memAddress packet) (memCount packet)).2
                 (memCount packet)) (memCount packet)]) ++
          [Call.free] :=
  rfl

theorem wire_hlMemRead_ok (K : Consts) (env : Env) (t : Nat) (packet : List Nat)
    (hok : (env.target_mem_read t (memAddress packet) (memCount packet)).1 = 0)
    (halloc : 4 < memCount packet → env.malloc (memCount packet) = true) :
    ∃ init, wire K (hlMemRead K env (some t) packet) =
        _respond_buf K K.REMOTE_RESP_OK
          (stored init (env.target_mem_read t (memAddress packet) (memCount packet)).2
            (memCount packet)) (memCount packet) ∧
      responses (hlMemRead K env (some t) packet) = 1 := by
  rw [hlMemRead_some]
  generalize memAddress packet = a at hok ⊢
  generalize memCount packet = n at hok halloc ⊢
  by_cases hc : n ≤ 4
  · refine ⟨[0, 0, 0, 0], ?_, ?_⟩
    · simp [hc, hok, wire, Call.wire]
    · simp [hc, hok, responses, Call.isResponse]
  · have hm := halloc (Nat.lt_of_not_le hc)
    refine ⟨[], ?_, ?_⟩
    · simp [hc, hok, hm, wire, Call.wire]
    · simp [hc, hok, hm, responses, Call.isResponse]

/-- C15: a Memory Read with count `n ≥ 1` against a Current Target whose read
succeeds (and whose allocation, made when `n > 4`, succeeds) gets exactly one
response: `REMOTE_RESP`, the status OK, the hex pairs of the first `n` bytes
the target layer returned for the decoded address, in their order, that is
`2n` hex characters, and `REMOTE_EOM`. -/
theorem C15_mem_read_ok (K : Consts) (env : Env) (t i : Nat) (packet : List Nat)
    (hsub : packet.getD 1 0 = K.REMOTE_MEM_READ)
    (hne : K.REMOTE_MEM_READ ≠ K.REMOTE_INIT_SWDP)
    (hn : 1 ≤ memCount packet)
    (hok : (env.target_mem_read t (memAddress packet) (memCount packet)).1 = 0)
    (halloc : 4 < memCount packet → env.malloc (memCount packet) = true) :
    responses (remotePacketProcessHL K env (some t) i packet).1 = 1 ∧
    wire K (remotePacketProcessHL K env (some t) i packet).1 =
      [Put.mk K.REMOTE_RESP 0] ++ [Put.mk K.REMOTE_RESP_OK 0] ++
        (((firstBytes (env.target_mem_read t (memAddress packet) (memCount packet)).2
            (memCount packet)).map hexPair).flatten).map (fun c => Put.mk c 0) ++
        [Put.mk K.REMOTE_EOM 1] ∧
    (firstBytes (env.target_mem_read t (memAddress packet) (memCount packet)).2
      (memCount packet)).length = memCount packet ∧
    (((firstBytes (env.target_mem_read t (memAddress packet) (memCount packet)).2
      (memCount packet)).map hexPair).flatten).length = 2 * memCount packet := by
  have hsw : hlSwitch K env (some t) packet =
      (hlMemRead K env (some t) packet, some t) := by
    unfold hlSwitch
    simp only [hsub, if_neg hne, if_true]
  obtain ⟨init, hw, hr⟩ := wire_hlMemRead_ok K env t packet hok halloc
  have hlen : (firstBytes (env.target_mem_read t (memAddress packet) (memCount packet)).2
      (memCount packet)).length = memCount packet := by
    simp [firstBytes]
  refine ⟨?_, ?_, hlen, ?_⟩
  · unfold remotePacketProcessHL
    rw [hsw]
    simp only [responses, List.countP_append, List.countP_cons, List.countP_nil] at hr ⊢
    simpa [Call.isResponse] using hr
  · unfold remotePacketProcessHL
    rw [hsw]
    have hsplit : wire K ([Call.SET_IDLE_STATE 0] ++ hlMemRead K env (some t) packet ++
        [Call.SET_IDLE_STATE 1]) = wire K (hlMemRead K env (some t) packet) := by
      simp [wire, Call.wire]
    rw [hsplit, hw, respond_buf_stored K _ init _ _ hn]
  · rw [hexPairs_length, hlen]

/-- Witness of C15 under `sampleConsts`: a Memory Read of 6 bytes, the
allocated path. -/
theorem C15_mem_read_ok_witness :
    memCount memReadSixPacket = 6 ∧
    wire sampleConsts
        (remotePacketProcessHL sampleConsts (readEnv [1, 2, 3, 4, 5, 171]) (some 1) 18
          memReadSixPacket).1 =
      [Put.mk 38 0] ++ [Put.mk 75 0] ++
        ([48, 49, 48, 50, 48, 51, 48, 52, 48, 53, 65, 66].map (fun c => Put.mk c 0)) ++
        [Put.mk 35 1] := by
  have h := C15_mem_read_ok sampleConsts (readEnv [1, 2, 3, 4, 5, 171]) 1 18 memReadSixPacket
    (by decide) (by decide) (by decide) (by decide) (by decide)
  refine ⟨by decide, ?_⟩
  rw [h.2.1]
  decide

/-! ## The mask of the combined TDI/TDO shift -/

/-- Up to 31 bits the mask is the `ticks + 1` low bits. -/
theorem tdoMask_small (t : Nat) (ht : t + 1 ≤ 31) : tdoMask t = 2 ^ (t + 1) - 1 := by
  have h30 : t ≤ 30 := by omega
  interval_cases t <;> decide

/-- From 32 bits on the 32-bit shift leaves 0 and the mask is all ones. -/
theorem tdoMask_large (t : Nat) (ht : 32 ≤ t + 1) : tdoMask t = 2 ^ 64 - 1 := by
  have hpow : (2 : Int) ^ (t + 1) = 2 ^ 32 * 2 ^ (t + 1 - 32) := by
    rw [← pow_add]
    congr 1
    omega
  have h0 : wrapInt32 (2 ^ (t + 1)) = 0 := by
    unfold wrapInt32
    rw [hpow, add_comm, Int.add_mul_emod_self_left]
    decide
  unfold tdoMask
  rw [h0]
  decide

/-- The integer in the response to a combined TDI/TDO shift of valid length. -/
theorem tditdo_response (K : Consts) (env : Env) (i : Nat) (packet : List Nat)
    (hsub : packet.getD 1 0 = K.REMOTE_TDITDO_TMS ∨ packet.getD 1 0 = K.REMOTE_TDITDO_NOTMS)
    (h1 : packet.getD 1 0 ≠ K.REMOTE_INIT) (h2 : packet.getD 1 0 ≠ K.REMOTE_RESET)
    (h3 : packet.getD 1 0 ≠ K.REMOTE_TMS) (hi : 5 ≤ i) :
    remotePacketProcessJTAG K env i packet =
      [Call.jtagtap_tdi_tdo_seq (decide (packet.getD 1 0 = K.REMOTE_TDITDO_TMS))
         (remotehston NOLIMIT (packet.drop 4)) (remotehston 2 (packet.drop 2) % 2 ^ 8),
       Call.respond K.REMOTE_RESP_OK
         ((env.jtagtap_tdi_tdo_seq (decide (packet.getD 1 0 = K.REMOTE_TDITDO_TMS))
             (remotehston NOLIMIT (packet.drop 4)) (remotehston 2 (packet.drop 2) % 2 ^ 8)
             % 2 ^ 64) &&&
           tdoMask (remotehston 2 (packet.drop 2) % 2 ^ 8))] := by
  unfold remotePacketProcessJTAG
  simp only [if_neg h1, if_neg h2, if_neg h3, if_pos hsub, if_neg (Nat.not_lt.mpr hi)]

/-- Up to 31 bits (`ticks + 1 ≤ 31`) the integer in the response is the value
captured from the tap reduced mod `2^(ticks+1)`; from 32 bits on it is the
value captured, unmasked. -/
theorem tditdo_masked (DO t : Nat) (hDO : DO < 2 ^ 64) :
    (t + 1 ≤ 31 → DO &&& tdoMask t = DO % 2 ^ (t + 1)) ∧
    (32 ≤ t + 1 → DO &&& tdoMask t = DO) := by
  constructor
  · intro ht
    rw [tdoMask_small t ht, Nat.and_pow_two_sub_one_eq_mod]
  · intro ht
    rw [tdoMask_large t ht, Nat.and_pow_two_sub_one_eq_mod, Nat.mod_eq_of_lt hDO]

/-- C16 at the failing input: on the combined TDI/TDO shift `JD1f0` (tick
count 0x1f, so 32 bits) with the value 0x100000001 captured from the tap, the
integer in the OK response is 0x100000001, not the 32 low bits
`0x100000001 mod 2^32 = 1`. -/
theorem C16_tditdo_mask_32 :
    remotehston 2 ([74, 68, 49, 102, 48].drop 2) = 31 ∧
    remotePacketProcessJTAG sampleConsts (tdoEnv 0x100000001) 5 [74, 68, 49, 102, 48] =
      [Call.jtagtap_tdi_tdo_seq true 0 31,
       Call.respond sampleConsts.REMOTE_RESP_OK 0x100000001] ∧
    0x100000001 % 2 ^ (31 + 1) = 1 := by
  decide

/-! ## Scan/Attach -/

theorem hlInitSwdp_returned (K : Consts) (env : Env) (cur_target : Option Nat) (d : Int)
    (hscan : env.adiv5_swdp_scan = ScanOutcome.returned d) :
    hlInitSwdp K env cur_target =
      if d ≤ 0 then
        ([Call.swdptap_init, Call.adiv5_swdp_scan, Call.respond K.REMOTE_RESP_ERR 0],
          cur_target)
      else
        ([Call.swdptap_init, Call.adiv5_swdp_scan, Call.target_attach_n 1,
          Call.respond (if env.target_attach_n.isSome then K.REMOTE_RESP_OK
            else K.REMOTE_RESP_ERR) 0], env.target_attach_n) := by
  unfold hlInitSwdp
  rw [hscan]
  by_cases hd : d ≤ 0
  · simp [hd]
  · cases hatt : env.target_attach_n <;> simp [hd]

theorem hlInitSwdp_raised (K : Consts) (env : Env) (cur_target : Option Nat)
    (hscan : env.adiv5_swdp_scan = ScanOutcome.raised_TIMEOUT ∨
      env.adiv5_swdp_scan = ScanOutcome.raised_ERROR) :
    hlInitSwdp K env cur_target =
      ([Call.swdptap_init, Call.adiv5_swdp_scan, Call.respond K.REMOTE_RESP_ERR 0,
        Call.respond K.REMOTE_RESP_ERR 0], cur_target) := by
  unfold hlInitSwdp
  rcases hscan with h | h <;> rw [h] <;> simp

theorem remotePacketProcessHL_scan (K : Consts) (env : Env) (cur_target : Option Nat)
    (i : Nat) (packet : List Nat) (hsub : packet.getD 1 0 = K.REMOTE_INIT_SWDP) :
    remotePacketProcessHL K env cur_target i packet =
      ([Call.SET_IDLE_STATE 0] ++ (hlInitSwdp K env cur_target).1 ++ [Call.SET_IDLE_STATE 1],
        (hlInitSwdp K env cur_target).2) := by
  unfold remotePacketProcessHL hlSwitch
  simp only [hsub, if_true]

/-- C17: a high-level Scan/Attach command responds with status OK if and only
if the device scan returns (no timeout, no error exception), returns at least
one device, and `target_attach_n` returns a target; when the scan returns at
least one device the Current Target afterwards is the result of
`target_attach_n` (absent when the attach failed, whatever it was before), and
in every other case the Current Target is unchanged. -/
theorem C17_scan_attach (K : Consts) (env : Env) (cur_target : Option Nat) (i : Nat)
    (packet : List Nat) (hsub : packet.getD 1 0 = K.REMOTE_INIT_SWDP)
    (hcodes : K.REMOTE_RESP_ERR ≠ K.REMOTE_RESP_OK) :
    ((∃ c ∈ (remotePacketProcessHL K env cur_target i packet).1,
        c.status = some K.REMOTE_RESP_OK) ↔
      ∃ d, env.adiv5_swdp_scan = ScanOutcome.returned d ∧ 0 < d ∧
        env.target_attach_n.isSome = true) ∧
    (∀ d, env.adiv5_swdp_scan = ScanOutcome.returned d → 0 < d →
      (remotePacketProcessHL K env cur_target i packet).2 = env.target_attach_n) ∧
    ((¬ ∃ d, env.adiv5_swdp_scan = ScanOutcome.returned d ∧ 0 < d) →
      (remotePacketProcessHL K env cur_target i packet).2 = cur_target) := by
  rw [remotePacketProcessHL_scan K env cur_target i packet hsub]
  cases hscan : env.adiv5_swdp_scan with
  | returned d =>
    rw [hlInitSwdp_returned K env cur_target d hscan]
    by_cases hd : d ≤ 0
    · simp only [if_pos hd]
      refine ⟨⟨?_, ?_⟩, ?_, ?_⟩
      · rintro ⟨c, hc, hst⟩
        simp only [List.cons_append, List.nil_append, List.mem_cons, List.mem_singleton,
          List.not_mem_nil, or_false] at hc
        rcases hc with rfl | rfl | rfl | rfl | rfl <;> simp [Call.status] at hst
        exact absurd hst hcodes
      · rintro ⟨d', hd', hpos, -⟩
        cases hd'
        omega
      · intro d' hd' hpos
        cases hd'
        omega
      · intro _
        trivial
    · simp only [if_neg hd]
      have hpos : 0 < d := by omega
      refine ⟨⟨?_, ?_⟩, ?_, ?_⟩
      · rintro ⟨c, hc, hst⟩
        refine ⟨d, rfl, hpos, ?_⟩
        simp only [List.cons_append, List.nil_append, List.mem_cons, List.mem_singleton,
          List.not_mem_nil, or_false] at hc
        rcases hc with rfl | rfl | rfl | rfl | rfl | rfl <;> simp [Call.status] at hst
        by_contra hnone
        exact hcodes (hst (by simpa using hnone))
      · rintro ⟨-, -, -, hatt⟩
        refine ⟨Call.respond K.REMOTE_RESP_OK 0, ?_, rfl⟩
        simp [hatt]
      · intro _ _ _
        trivial
      · intro hno
        exact absurd ⟨d, rfl, hpos⟩ hno
  | raised_TIMEOUT =>
    rw [hlInitSwdp_raised K env cur_target (Or.inl hscan)]
    refine ⟨⟨?_, ?_⟩, ?_, ?_⟩
    · rintro ⟨c, hc, hst⟩
      simp only [List.cons_append, List.nil_append, List.mem_cons, List.mem_singleton,
        List.not_mem_nil, or_false] at hc
      rcases hc with rfl | rfl | rfl | rfl | rfl | rfl <;> simp [Call.status] at hst <;>
        exact absurd hst hcodes
    · rintro ⟨d', hd', -, -⟩
      cases hd'
    · intro d' hd'
      cases hd'
    · intro _
      rfl
  | raised_ERROR =>
    rw [hlInitSwdp_raised K env cur_target (Or.inr hscan)]
    refine ⟨⟨?_, ?_⟩, ?_, ?_⟩
    · rintro ⟨c, hc, hst⟩
      simp only [List.cons_append, List.nil_append, List.mem_cons, List.mem_singleton,
        List.not_mem_nil, or_false] at hc
      rcases hc with rfl | rfl | rfl | rfl | rfl | rfl <;> simp [Call.status] at hst <;>
        exact absurd hst hcodes
    · rintro ⟨d', hd', -, -⟩
      cases hd'
    · intro d' hd'
      cases hd'
    · intro _
      rfl

/-- Witness of C17 under `sampleConsts`: the command `Hs` with a scan that
returns one device and an attach that returns target 1. -/
theorem C17_scan_attach_witness :
    ((∃ c ∈ (remotePacketProcessHL sampleConsts (sampleEnv (ScanOutcome.returned 1)) none 2
          [72, 115]).1, c.status = some sampleConsts.REMOTE_RESP_OK) ↔
      ∃ d, (sampleEnv (ScanOutcome.returned 1)).adiv5_swdp_scan = ScanOutcome.returned d ∧
        0 < d ∧ (sampleEnv (ScanOutcome.returned 1)).target_attach_n.isSome = true) ∧
    (∀ d, (sampleEnv (ScanOutcome.returned 1)).adiv5_swdp_scan = ScanOutcome.returned d →
      0 < d →
      (remotePacketProcessHL sampleConsts (sampleEnv (ScanOutcome.returned 1)) none 2
        [72, 115]).2 = (sampleEnv (ScanOutcome.returned 1)).target_attach_n) ∧
    ((¬ ∃ d, (sampleEnv (ScanOutcome.returned 1)).adiv5_swdp_scan = ScanOutcome.returned d ∧
        0 < d) →
      (remotePacketProcessHL sampleConsts (sampleEnv (ScanOutcome.returned 1)) none 2
        [72, 115]).2 = none) :=
  C17_scan_attach sampleConsts (sampleEnv (ScanOutcome.returned 1)) none 2 [72, 115]
    (by decide) (by decide)

/-! ## The idle/busy indicator -/

theorem idleSets_hlSwitch (K : Consts) (env : Env) (cur_target : Option Nat)
    (packet : List Nat) : (hlSwitch K env cur_target packet).1.countP Call.isIdleSet = 0 := by
  unfold hlSwitch
  simp only []
  split_ifs
  · unfold hlInitSwdp
    cases env.adiv5_swdp_scan with
    | returned d =>
      simp only []
      split_ifs <;> simp [Call.isIdleSet]
    | raised_TIMEOUT => simp [Call.isIdleSet]
    | raised_ERROR => simp [Call.isIdleSet]
  · unfold hlMemRead
    cases cur_target with
    | none => simp [Call.isIdleSet]
    | some t =>
      simp only []
      split_ifs <;> simp [Call.isIdleSet]
  · unfold hlMemWrite
    cases cur_target with
    | none => simp [Call.isIdleSet]
    | some t =>
      simp only []
      split_ifs <;> simp [Call.isIdleSet]
  · cases cur_target <;> simp [Call.isIdleSet]
  · cases cur_target <;> simp [Call.isIdleSet]
  · cases cur_target <;> simp [Call.isIdleSet]
  · simp [Call.isIdleSet]

theorem responses_hlSwitch_pos (K : Consts) (env : Env) (cur_target : Option Nat)
    (packet : List Nat) : 1 ≤ responses (hlSwitch K env cur_target packet).1 := by
  unfold hlSwitch
  simp only []
  split_ifs
  · rw [responses_hlInitSwdp]
    cases env.adiv5_swdp_scan <;> simp
  · rw [responses_hlMemRead]
  · rw [responses_hlMemWrite]
  · cases cur_target <;> simp [responses, Call.isResponse]
  · cases cur_target <;> simp [responses, Call.isResponse]
  · cases cur_target <;> simp [responses, Call.isResponse]
  · simp [responses, Call.isResponse]

theorem idleState_concat (s0 v : Nat) (tr : List Call) :
    idleState s0 (tr ++ [Call.SET_IDLE_STATE v]) = v := by
  induction tr generalizing s0 with
  | nil => rfl
  | cons c t ih =>
    cases c <;> exact ih _

/-- C18: for every high-level command buffer, every Current Target and every
behaviour of the collaborators, `remotePacketProcessHL` first sets the
indicator busy (`SET_IDLE_STATE(0)`), then makes the calls of the sub-command,
among them its responses and no `SET_IDLE_STATE`, and last sets the indicator
idle (`SET_IDLE_STATE(1)`): the indicator is set twice in all and is idle when
the handler returns. -/
theorem C18_idle_indicator (K : Consts) (env : Env) (cur_target : Option Nat) (i : Nat)
    (packet : List Nat) :
    (remotePacketProcessHL K env cur_target i packet).1 =
      Call.SET_IDLE_STATE 0 ::
        ((hlSwitch K env cur_target packet).1 ++ [Call.SET_IDLE_STATE 1]) ∧
    (∀ c ∈ (hlSwitch K env cur_target packet).1, c.isIdleSet = false) ∧
    1 ≤ responses (hlSwitch K env cur_target packet).1 ∧
    (remotePacketProcessHL K env cur_target i packet).1.countP Call.isIdleSet = 2 ∧
    (∀ s0, idleState s0 (remotePacketProcessHL K env cur_target i packet).1 = 1) := by
  have htr : (remotePacketProcessHL K env cur_target i packet).1 =
      Call.SET_IDLE_STATE 0 ::
        ((hlSwitch K env cur_target packet).1 ++ [Call.SET_IDLE_STATE 1]) := rfl
  have hz := idleSets_hlSwitch K env cur_target packet
  refine ⟨htr, ?_, responses_hlSwitch_pos K env cur_target packet, ?_, ?_⟩
  · intro c hc
    have := List.countP_eq_zero.mp hz c hc
    simpa using this
  · rw [htr, List.countP_cons, List.countP_append, hz]
    simp [Call.isIdleSet]
  · intro s0
    rw [htr, ← List.cons_append, idleState_concat]

/-! ## The scratch buffer of Memory Read and Memory Write -/

theorem hlMemWrite_some (K : Consts) (env : Env) (t : Nat) (packet : List Nat) :
    hlMemWrite K env (some t) packet =
      if memCount packet ≤ 4 then
        [Call.target_mem_write t (memAddress packet)
            (unhexify (((packet.drop 2).drop 8).drop 8) (memCount packet)) (memCount packet)] ++
          (if env.target_mem_write t (memAddress packet)
              (unhexify (((packet.drop 2).drop 8).drop 8) (memCount packet))
              (memCount packet) ≠ 0 then [Call.respond K.REMOTE_RESP_ERR 0]
           else [Call.respond K.REMOTE_RESP_OK 0])
      else if ¬ env.malloc (memCount packet) then
        [Call.malloc (memCount packet), Call.respond K.REMOTE_RESP_ERR 0]
      else
        [Call.malloc (memCount packet),
         Call.target_mem_write t (memAddress packet)
            (unhexify (((packet.drop 2).drop 8).drop 8) (memCount packet))
            (memCount packet)] ++
          (if env.target_mem_write t (memAddress packet)
              (unhexify (((packet.drop 2).drop 8).drop 8) (memCount packet))
              (memCount packet) ≠ 0 then [Call.respond K.REMOTE_RESP_ERR 0]
           else [Call.respond K.REMOTE_RESP_OK 0]) ++
          [Call.free] :=
  rfl

/-- C19: in Memory Read and Memory Write against a target, with a count above
4 and an allocation that succeeds, the calls are `malloc`, the target
operation, the response and then `free`, once, whether the target operation
succeeds or fails; when the allocation fails the calls are `malloc` and the
response ERR, with no target operation and no `free`; with a count of 4 or
less there is no `malloc` and no `free`. -/
theorem C19_scratch_buffer (K : Consts) (env : Env) (t : Nat) (packet : List Nat) :
    (4 < memCount packet → env.malloc (memCount packet) = true →
      ∃ op resp, op.isTargetOp = true ∧ resp.isResponse = true ∧
        hlMemRead K env (some t) packet = [Call.malloc (memCount packet), op, resp, Call.free]) ∧
    (4 < memCount packet → env.malloc (memCount packet) = false →
      hlMemRead K env (some t) packet =
        [Call.malloc (memCount packet), Call.respond K.REMOTE_RESP_ERR 0]) ∧
    (memCount packet ≤ 4 →
      mallocs (hlMemRead K env (some t) packet) = 0 ∧
      frees (hlMemRead K env (some t) packet) = 0) ∧
    (4 < memCount packet → env.malloc (memCount packet) = true →
      ∃ op resp, op.isTargetOp = true ∧ resp.isResponse = true ∧
        hlMemWrite K env (some t) packet =
          [Call.malloc (memCount packet), op, resp, Call.free]) ∧
    (4 < memCount packet → env.malloc (memCount packet) = false →
      hlMemWrite K env (some t) packet =
        [Call.malloc (memCount packet), Call.respond K.REMOTE_RESP_ERR 0]) ∧
    (memCount packet ≤ 4 →
      mallocs (hlMemWrite K env (some t) packet) = 0 ∧
      frees (hlMemWrite K env (some t) packet) = 0) := by
  rw [hlMemRead_some, hlMemWrite_some]
  generalize memAddress packet = a
  generalize memCount packet = n
  generalize unhexify (((packet.drop 2).drop 8).drop 8) n = data
  refine ⟨?_, ?_, ?_, ?_, ?_, ?_⟩
  · intro hn hm
    have hc : ¬ n ≤ 4 := by omega
    by_cases hr : (env.target_mem_read t a n).1 = 0
    · exact ⟨Call.target_mem_read t a n,
        Call.respond_buf K.REMOTE_RESP_OK (stored [] (env.target_mem_read t a n).2 n) n,
        rfl, rfl, by simp [hc, hm, hr]⟩
    · exact ⟨Call.target_mem_read t a n, Call.respond K.REMOTE_RESP_ERR 0, rfl, rfl,
        by simp [hc, hm, hr]⟩
  · intro hn hm
    have hc : ¬ n ≤ 4 := by omega
    simp [hc, hm]
  · intro hn
    by_cases hr : (env.target_mem_read t a n).1 = 0 <;>
      simp [hn, hr, mallocs, frees]
  · intro hn hm
    have hc : ¬ n ≤ 4 := by omega
    by_cases hr : env.target_mem_write t a data n = 0
    · exact ⟨Call.target_mem_write t a data n, Call.respond K.REMOTE_RESP_OK 0, rfl, rfl,
        by simp [hc, hm, hr]⟩
    · exact ⟨Call.target_mem_write t a data n, Call.respond K.REMOTE_RESP_ERR 0, rfl, rfl,
        by simp [hc, hm, hr]⟩
  · intro hn hm
    have hc : ¬ n ≤ 4 := by omega
    simp [hc, hm]
  · intro hn
    by_cases hr : env.target_mem_write t a data n = 0 <;>
      simp [hn, hr, mallocs, frees]

/-- Witness of C19 under `sampleConsts`: a Memory Read of 6 bytes whose
allocation succeeds. -/
theorem C19_scratch_buffer_witness :
    4 < memCount memReadSixPacket ∧
    (sampleEnv (ScanOutcome.returned 1)).malloc (memCount memReadSixPacket) = true ∧
    ∃ op resp, op.isTargetOp = true ∧ resp.isResponse = true ∧
      hlMemRead sampleConsts (sampleEnv (ScanOutcome.returned 1)) (some 1) memReadSixPacket =
        [Call.malloc (memCount memReadSixPacket), op, resp, Call.free] :=
  ⟨by decide, by decide,
    (C19_scratch_buffer sampleConsts (sampleEnv (ScanOutcome.returned 1)) 1
      memReadSixPacket).1 (by decide) (by decide)⟩

end Remote
